import Mathlib

/-!
Verification of the diverce conversion engine.

Shallow embedding of the conversion pipeline
(src/app/lib/conversion-pipeline.ts), the git helpers
(src/app/lib/git-utils.ts), and the job store plus status feed
(src/app/api/convert/route.ts and src/app/api/projects/[projectId]/route.ts).

Modelling conventions:
- Every file the pipeline touches lives at projectPath[/sub]/name, so a
  filesystem path is modelled structurally as an optional sub-directory plus a
  file name, and the filesystem is an association list from such paths to file
  contents.
- package.json is stored structurally (dependency maps and script map as
  insertion-ordered association lists, mirroring JavaScript object key order);
  JSON.parse / JSON.stringify round-trips are the identity on this
  representation, so byte equality of serialized manifests is structural
  equality here.
- External processes (npm install, the grep scan, the sed substitution, git
  commands) are modelled by environment records describing their outcomes,
  since the TypeScript code only observes success, failure, and stdout.
-/

set_option maxRecDepth 4096

namespace Diverce

/-- ASCII fragment of the whitespace class removed by the JavaScript
string trim method, used on repository URLs. -/
def isJsWs (c : Char) : Bool :=
  c = ' ' || c = '\t' || c = '\n' || c = '\r' || c = Char.ofNat 11 || c = Char.ofNat 12

/-- The two quote characters removed from repository URLs by the global
quote-replacement in cloneRepository. -/
def isQuoteChar (c : Char) : Bool :=
  c = Char.ofNat 39 || c = Char.ofNat 34

/-- Remove the longest run of characters satisfying p from the end of a list. -/
def dropEndWhile (p : Char → Bool) (l : List Char) : List Char :=
  (l.reverse.dropWhile p).reverse

/-- List-level JavaScript trim: drop whitespace from both ends. -/
def jsTrimL (l : List Char) : List Char :=
  dropEndWhile isJsWs (l.dropWhile isJsWs)

/-- JavaScript String.prototype.trim. -/
def jsTrim (s : String) : String := ⟨jsTrimL s.data⟩

/-- The replace call of cloneRepository: delete every quote character,
wherever it occurs in the string. -/
def removeQuoteChars (s : String) : String := ⟨s.data.filter (fun c => !(isQuoteChar c))⟩

/-- URL sanitizer of cloneRepository (git-utils.ts line 104):
trim, then delete every quote character. -/
def cleanRepoUrl (s : String) : String := removeQuoteChars (jsTrim s)

/-- The sanitizer as the specification words it: trim, then strip quote
characters only at the two ends of the string.  Used solely to compare the
specified behaviour against cleanRepoUrl. -/
def specStripSurroundingQuotes (s : String) : String :=
  ⟨dropEndWhile isQuoteChar ((jsTrim s).data.dropWhile isQuoteChar)⟩

/-- Does the first list occur as a leading segment of the second? -/
def listLead : List Char → List Char → Bool
  | [], _ => true
  | _ :: _, [] => false
  | a :: as, b :: bs => a = b && listLead as bs

/-- Does the first list occur contiguously anywhere inside the second? -/
def listSub (n : List Char) : List Char → Bool
  | [] => listLead n []
  | c :: t => listLead n (c :: t) || listSub n t

/-- JavaScript String.prototype.includes, also used for log-line checks. -/
def strHasSub (needle hay : String) : Bool := listSub needle.data hay.data

/-- First binding of a key in a JavaScript-object-like association list. -/
def lookupKey : List (String × String) → String → Option String
  | [], _ => none
  | (k, v) :: t, key => if k = key then some v else lookupKey t key

/-- JavaScript property assignment: overwrite the binding in place if the key
exists, otherwise append it (insertion order of object keys). -/
def setKey : List (String × String) → String → String → List (String × String)
  | [], key, val => [(key, val)]
  | (k, v) :: t, key, val => if k = key then (k, val) :: t else (k, v) :: setKey t key val

/-- JavaScript delete of an object property: every binding of the key is
removed (object keys are unique, so on states reachable from parsed JSON this
is the single-property deletion the code performs). -/
def removeKey : List (String × String) → String → List (String × String)
  | [], _ => []
  | (k, v) :: t, key => if k = key then removeKey t key else (k, v) :: removeKey t key

/-- Structured content of a package.json manifest: the three object fields the
pipeline reads or writes.  A missing field is the empty list. -/
structure PackageJson where
  dependencies : List (String × String)
  devDependencies : List (String × String)
  scripts : List (String × String)
deriving DecidableEq, Repr

/-- A file in the checkout: either plain text or a parsed manifest. -/
inductive FileC
  | text (s : String)
  | pkg (p : PackageJson)
deriving DecidableEq, Repr

/-- A path inside the checkout: optional sub-directory (the packageJsonPath
option) plus file name. -/
structure FPath where
  sub : Option String
  name : String
deriving DecidableEq, Repr

/-- The checkout filesystem. -/
abbrev FS := List (FPath × FileC)

/-- Read a file. -/
def fsRead : List (FPath × FileC) → FPath → Option FileC
  | [], _ => none
  | (q, v) :: t, p => if q = p then some v else fsRead t p

/-- Write a file: overwrite in place if the path exists, else append. -/
def fsWrite : List (FPath × FileC) → FPath → FileC → List (FPath × FileC)
  | [], p, v => [(p, v)]
  | (q, w) :: t, p, v => if q = p then (q, v) :: t else (q, w) :: fsWrite t p v

/-- fs.existsSync. -/
def fsExists (fs : List (FPath × FileC)) (p : FPath) : Bool := (fsRead fs p).isSome

/-- ConversionOptions of conversion-pipeline.ts. -/
structure ConvOptions where
  projectPath : String
  projectName : String
  enableKVCache : Bool
  kvNamespaceId : String
  packageJsonPath : Option String
deriving DecidableEq, Repr

/-- JavaScript truthiness of options.packageJsonPath: undefined and the empty
string are both falsy. -/
def subPathOf (opts : ConvOptions) : Option String :=
  match opts.packageJsonPath with
  | none => none
  | some s => if s = "" then none else some s

/-- getPackageJsonPath of the pipeline. -/
def getPackageJsonPath (opts : ConvOptions) : FPath := ⟨subPathOf opts, "package.json"⟩

/-- Render a structural path as the string path.join would produce, for
log and error messages. -/
def pathString (opts : ConvOptions) (p : FPath) : String :=
  match p.sub with
  | none => opts.projectPath ++ "/" ++ p.name
  | some s => opts.projectPath ++ "/" ++ s ++ "/" ++ p.name

/-- The fixed preview script written in step 5. -/
def previewScript : String := "opennextjs-cloudflare build && wrangler dev"

/-- The fixed deploy script written in step 5. -/
def deployScript : String := "opennextjs-cloudflare build && wrangler deploy"

/-- The fixed cf-typegen script written in step 5. -/
def cfTypegenScript : String := "wrangler types --env-interface CloudflareEnv cloudflare-env.d.ts"

/-- The legacy adapter package removed in step 6. -/
def nextOnPages : String := "@cloudflare/next-on-pages"

/-- Content of open-next.config.ts as generated by createOpenNextConfig. -/
def openNextConfigContent (opts : ConvOptions) : String :=
  "import \x7b defineCloudflareConfig \x7d from \"@opennextjs/cloudflare\";\n"
    ++ (if opts.enableKVCache then
          "import kvIncrementalCache from \"@opennextjs/cloudflare/overrides/incremental-cache/kv-incremental-cache\";"
        else "")
    ++ "\n\nexport default defineCloudflareConfig(\x7b\n"
    ++ (if opts.enableKVCache then "  incrementalCache: kvIncrementalCache," else "")
    ++ "\n\x7d);\n"

/-- The KV namespace binding list of wrangler.jsonc, abstract view: non-empty
exactly when the cache flag is on and a namespace id was supplied (JavaScript
truthiness of the id string). -/
def kvNamespacesList (opts : ConvOptions) : List (String × String) :=
  if opts.enableKVCache && opts.kvNamespaceId != "" then
    [("NEXT_CACHE_WORKERS_KV", opts.kvNamespaceId)]
  else []

/-- The kv_namespaces field text exactly as the ternary of
createWranglerConfig produces it. -/
def kvNamespacesField (opts : ConvOptions) : String :=
  if opts.enableKVCache && opts.kvNamespaceId != "" then
    "[\n  \x7b\n    \"binding\": \"NEXT_CACHE_WORKERS_KV\",\n    \"id\": \""
      ++ opts.kvNamespaceId ++ "\"\n  \x7d\n]"
  else "[]"

/-- Content of wrangler.jsonc as generated by createWranglerConfig. -/
def wranglerConfigContent (opts : ConvOptions) : String :=
  "\x7b\n  \"$schema\": \"node_modules/wrangler/config-schema.json\",\n  \"main\": \".open-next/worker.js\",\n  \"name\": \""
    ++ opts.projectName
    ++ "\",\n  \"compatibility_date\": \"2024-12-30\",\n  \"compatibility_flags\": [\"nodejs_compat\"],\n  \"assets\": \x7b\n    \"directory\": \".open-next/assets\",\n    \"binding\": \"ASSETS\"\n  \x7d,\n  \"kv_namespaces\": "
    ++ kvNamespacesField opts ++ "\n\x7d\n"

/-- The block appended to .gitignore in step 7. -/
def gitignoreAppend : String := "\n# OpenNext build output\n.open-next\n"

/-- Outcome of the grep scan for edge-runtime exports: a successful exit with
some stdout, the no-matches exit (grep status 1, which makes exec throw), or a
genuine tooling failure (also a throw). -/
inductive GrepOutcome
  | found (stdout : String)
  | exitNoMatch
  | toolErr
deriving DecidableEq, Repr

/-- Outcomes of the external processes one pipeline run invokes. -/
structure PipeEnv where
  grep : GrepOutcome
  installErr : Option String
  sedOk : Bool
deriving DecidableEq, Repr

/-- Informational line logged when no edge-runtime usage is seen. -/
def noUsageLine : String := "No Edge Runtime usage detected ✅"

/-- Warning line logged when the scan finds edge-runtime usage. -/
def edgeWarnLine : String := "⚠️ WARNING: Edge Runtime usage detected. These will be removed during conversion."

/-- The single log line the edge-runtime scan of verifyNextJsProject emits:
non-empty stdout logs the warning; empty stdout, the no-match exit, and any
other exec failure all log the no-usage line (the catch does not distinguish
them). -/
def scanLogLine (env : PipeEnv) : String :=
  match env.grep with
  | .found out => if jsTrim out != "" then edgeWarnLine else noUsageLine
  | .exitNoMatch => noUsageLine
  | .toolErr => noUsageLine

/-- State threaded through the pipeline: the checkout filesystem and the
accumulated log of this run. -/
structure PipeSt where
  fs : List (FPath × FileC)
  logs : List String
deriving DecidableEq, Repr

/-- this.log of the pipeline. -/
def addLog (st : PipeSt) (m : String) : PipeSt := { st with logs := st.logs ++ [m] }

/-- Result of one pipeline step: normal return, or a thrown error carrying the
state (logs) accumulated so far. -/
inductive StepOut
  | ok (st : PipeSt)
  | err (st : PipeSt) (msg : String)
deriving DecidableEq, Repr

/-- Sequencing of steps inside the try block of run: a thrown error skips
everything that follows. -/
def stepBind (o : StepOut) (f : PipeSt → StepOut) : StepOut :=
  match o with
  | .ok st => f st
  | .err st m => .err st m

/-- The filesystem component of a step outcome. -/
def fsOf (o : StepOut) : List (FPath × FileC) :=
  match o with
  | .ok st => st.fs
  | .err st _ => st.fs

/-- Whether a step returned normally. -/
def stepIsOk (o : StepOut) : Bool :=
  match o with
  | .ok _ => true
  | .err _ _ => false

/-- The log component of a step outcome. -/
def logsOf (o : StepOut) : List String :=
  match o with
  | .ok st => st.logs
  | .err st _ => st.logs

/-- Step 1, verifyNextJsProject: the manifest must exist and declare next in
either dependency group; then the best-effort edge-runtime scan logs one line
and never throws. -/
def verifyNextJsProject (opts : ConvOptions) (env : PipeEnv) (st : PipeSt) : StepOut :=
  let st := addLog st "Verifying Next.js project..."
  let st := match subPathOf opts with
    | some sub => addLog st ("Using custom package.json path: " ++ sub)
    | none => st
  match fsRead st.fs (getPackageJsonPath opts) with
  | none => .err st ("Could not find package.json at " ++ pathString opts (getPackageJsonPath opts))
  | some (.text _) => .err st "Unexpected token in JSON"
  | some (.pkg p) =>
    if (lookupKey p.dependencies "next").isNone && (lookupKey p.devDependencies "next").isNone then
      .err st "This project does not appear to be a Next.js project (next package not found)"
    else
      let st := addLog st "Next.js project verified ✅"
      let st := addLog st "Checking for Edge Runtime usage..."
      .ok (addLog st (scanLogLine env))

/-- Step 2, installDependencies: runs npm install in the manifest directory;
a failure is wrapped and rethrown.  The npm process itself is external and does
not touch the files this model tracks structurally. -/
def installDependencies (opts : ConvOptions) (env : PipeEnv) (st : PipeSt) : StepOut :=
  let st := addLog st "Installing OpenNext dependencies..."
  let st := match subPathOf opts with
    | some sub => addLog st ("Installing dependencies in custom directory: " ++ opts.projectPath ++ "/" ++ sub)
    | none => st
  match env.installErr with
  | none => .ok (addLog st "Dependencies installed successfully ✅")
  | some m => .err st ("Failed to install dependencies: " ++ m)

/-- Step 3, createOpenNextConfig: unconditionally overwrite
open-next.config.ts in the manifest directory. -/
def createOpenNextConfig (opts : ConvOptions) (st : PipeSt) : StepOut :=
  let st := addLog st "Creating or updating open-next.config.ts..."
  let st := { st with fs := fsWrite st.fs ⟨subPathOf opts, "open-next.config.ts"⟩ (.text (openNextConfigContent opts)) }
  .ok (addLog st "open-next.config.ts created/updated ✅")

/-- Step 4, createWranglerConfig: unconditionally overwrite wrangler.jsonc in
the manifest directory. -/
def createWranglerConfig (opts : ConvOptions) (st : PipeSt) : StepOut :=
  let st := addLog st "Creating or updating wrangler.jsonc..."
  let st := { st with fs := fsWrite st.fs ⟨subPathOf opts, "wrangler.jsonc"⟩ (.text (wranglerConfigContent opts)) }
  .ok (addLog st "wrangler.jsonc created/updated ✅")

/-- Step 5, updatePackageJson: set the three fixed script entries and write the
manifest back. -/
def updatePackageJson (opts : ConvOptions) (st : PipeSt) : StepOut :=
  let st := addLog st "Updating package.json scripts..."
  match fsRead st.fs (getPackageJsonPath opts) with
  | none => .err st ("Could not find package.json at " ++ pathString opts (getPackageJsonPath opts))
  | some (.text _) => .err st "Unexpected token in JSON"
  | some (.pkg p) =>
    let newScripts := setKey (setKey (setKey p.scripts "preview" previewScript) "deploy" deployScript) "cf-typegen" cfTypegenScript
    let p := { p with scripts := newScripts }
    let st := { st with fs := fsWrite st.fs (getPackageJsonPath opts) (.pkg p) }
    .ok (addLog st "package.json scripts updated ✅")

/-- Step 6, removeConflictingReferences: delete the legacy adapter from both
dependency groups (writing the manifest after each removal), then attempt the
best-effort sed substitution, whose failure only logs a note. -/
def removeConflictingReferences (opts : ConvOptions) (env : PipeEnv) (st : PipeSt) : StepOut :=
  let st := addLog st "Removing conflicting references..."
  match fsRead st.fs (getPackageJsonPath opts) with
  | none => .err st ("Could not find package.json at " ++ pathString opts (getPackageJsonPath opts))
  | some (.text _) => .err st "Unexpected token in JSON"
  | some (.pkg p0) =>
    let step1 : PackageJson × PipeSt :=
      if (lookupKey p0.dependencies nextOnPages).isSome then
        let p1 := { p0 with dependencies := removeKey p0.dependencies nextOnPages }
        let st1 := addLog st "Removed @cloudflare/next-on-pages from dependencies"
        (p1, { st1 with fs := fsWrite st1.fs (getPackageJsonPath opts) (.pkg p1) })
      else (p0, st)
    let p1 := step1.1
    let st := step1.2
    let step2 : PackageJson × PipeSt :=
      if (lookupKey p1.devDependencies nextOnPages).isSome then
        let p2 := { p1 with devDependencies := removeKey p1.devDependencies nextOnPages }
        let st2 := addLog st "Removed @cloudflare/next-on-pages from devDependencies"
        (p2, { st2 with fs := fsWrite st2.fs (getPackageJsonPath opts) (.pkg p2) })
      else (p1, st)
    let st := step2.2
    let st := if env.sedOk then addLog st "Removed edge runtime declarations from files"
      else addLog st "Note: Could not automatically remove edge runtime declarations. You may need to remove these manually."
    .ok (addLog st "Conflicting references removed ✅")

/-- Text stored at a path, for the .gitignore read (the manifest is never
stored at a .gitignore path in any modelled run). -/
def fileTextOf (f : FileC) : String :=
  match f with
  | .text s => s
  | .pkg _ => ""

/-- Step 7, updateGitignore: choose the root .gitignore, or the sub-directory
one when a sub-path is configured and the root file is absent; append the
.open-next block only when no .open-next mention is present. -/
def updateGitignore (opts : ConvOptions) (st : PipeSt) : StepOut :=
  let st := addLog st "Updating .gitignore..."
  let rootP : FPath := ⟨none, ".gitignore"⟩
  let choice : FPath × PipeSt :=
    match subPathOf opts with
    | some sub =>
      if fsExists st.fs rootP then (rootP, st)
      else
        let subP : FPath := ⟨some sub, ".gitignore"⟩
        if fsExists st.fs subP then
          (subP, addLog st ("Using .gitignore from subfolder: " ++ sub ++ "/.gitignore"))
        else (rootP, st)
    | none => (rootP, st)
  let gp := choice.1
  let st := choice.2
  let readOut : String × PipeSt :=
    match fsRead st.fs gp with
    | some f => (fileTextOf f, st)
    | none => ("", addLog st "No existing .gitignore found, creating a new one")
  let content := readOut.1
  let st := readOut.2
  if strHasSub ".open-next" content then
    .ok (addLog st ".open-next already in .gitignore ✅")
  else
    let content := content ++ gitignoreAppend
    let st := { st with fs := fsWrite st.fs gp (.text content) }
    .ok (addLog st "Added .open-next to .gitignore ✅")

/-- ConversionResult of the pipeline. -/
structure ConversionResult where
  success : Bool
  message : String
  logs : List String
deriving DecidableEq, Repr

/-- ConversionPipeline.run: the seven steps in their fixed order inside one
try block; the first thrown error aborts the rest, is logged, and produces a
failure result carrying the accumulated log. -/
def runPipeline (opts : ConvOptions) (env : PipeEnv) (fs0 : List (FPath × FileC)) :
    ConversionResult × List (FPath × FileC) :=
  let st0 : PipeSt := { fs := fs0, logs := ["Starting conversion pipeline..."] }
  let out :=
    stepBind (stepBind (stepBind (stepBind (stepBind (stepBind
      (verifyNextJsProject opts env st0)
      (installDependencies opts env))
      (createOpenNextConfig opts))
      (createWranglerConfig opts))
      (updatePackageJson opts))
      (removeConflictingReferences opts env))
      (updateGitignore opts)
  match out with
  | .ok st =>
    let st := addLog st "Conversion completed successfully! 🎉"
    ({ success := true,
       message := "Project successfully converted to use @opennextjs/cloudflare",
       logs := st.logs }, st.fs)
  | .err st m =>
    let st := addLog st ("Error during conversion: " ++ m)
    ({ success := false, message := "Conversion failed: " ++ m, logs := st.logs }, st.fs)

/-- The script-block update of step 5, as a manifest transformer. -/
def setScriptsOf (p : PackageJson) : PackageJson :=
  let s := setKey (setKey (setKey p.scripts "preview" previewScript) "deploy" deployScript) "cf-typegen" cfTypegenScript
  { p with scripts := s }

/-- The manifest transformation of step 6: drop the legacy adapter from both
dependency groups when present. -/
def removePagesPkg (p : PackageJson) : PackageJson :=
  let p1 := if (lookupKey p.dependencies nextOnPages).isSome then
      { p with dependencies := removeKey p.dependencies nextOnPages } else p
  if (lookupKey p1.devDependencies nextOnPages).isSome then
    { p1 with devDependencies := removeKey p1.devDependencies nextOnPages } else p1

/-- The filesystem effect of step 6 (the sed substitution touches no tracked
file): the manifest is rewritten after each removal that fires. -/
def removeConfApply (opts : ConvOptions) (fs : List (FPath × FileC)) : List (FPath × FileC) :=
  match fsRead fs (getPackageJsonPath opts) with
  | some (.pkg p0) =>
    let p1 := if (lookupKey p0.dependencies nextOnPages).isSome then
        { p0 with dependencies := removeKey p0.dependencies nextOnPages } else p0
    let fs1 := if (lookupKey p0.dependencies nextOnPages).isSome then
        fsWrite fs (getPackageJsonPath opts) (.pkg p1) else fs
    if (lookupKey p1.devDependencies nextOnPages).isSome then
      fsWrite fs1 (getPackageJsonPath opts)
        (.pkg { p1 with devDependencies := removeKey p1.devDependencies nextOnPages })
    else fs1
  | _ => fs

/-- The filesystem effect of step 7: choose the ignore file, then append the
.open-next block only when no .open-next mention is present. -/
def gitignoreApply (opts : ConvOptions) (fs : List (FPath × FileC)) : List (FPath × FileC) :=
  let rootP : FPath := ⟨none, ".gitignore"⟩
  let gp : FPath :=
    match subPathOf opts with
    | some sub =>
      if fsExists fs rootP then rootP
      else if fsExists fs ⟨some sub, ".gitignore"⟩ then ⟨some sub, ".gitignore"⟩ else rootP
    | none => rootP
  let content : String :=
    match fsRead fs gp with
    | some f => fileTextOf f
    | none => ""
  if strHasSub ".open-next" content then fs
  else fsWrite fs gp (.text (content ++ gitignoreAppend))

/-- State of the local path storageRoot/projectId on disk. -/
inductive PathSt
  | absent
  | repo
  | nonRepo
deriving DecidableEq, Repr

/-- Outcomes of the filesystem and git operations one cloneRepository call can
perform.  pathInit is the state of the local path before the call; checkErr
models checkIsRepo (or any read of the existing directory) throwing; rmElseOk
is the removal attempted when the path is not a repository, rmCatchOk the
removal retried inside the catch handler. -/
structure CloneEnv where
  storageExists : Bool
  mkdirOk : Bool
  mkdirErrMsg : String
  pathInit : PathSt
  checkErr : Bool
  checkoutOk : Bool
  pullOk : Bool
  rmElseOk : Bool
  rmCatchOk : Bool
  rmErrMsg : String
  cloneOk : Bool
  cloneErrMsg : String
deriving DecidableEq, Repr

/-- CloneResult of git-utils.ts (the error object is carried as its message). -/
structure CloneResult where
  success : Bool
  path : String
  message : String
  error : Option String
deriving DecidableEq, Repr

/-- Error classification applied to a failed clone. -/
def classifyCloneError (m : String) : String :=
  if strHasSub "Authentication failed" m then
    "Authentication failed. This may be a private repository that requires credentials."
  else if strHasSub "not found" m then
    "Repository not found. Please verify the URL is correct."
  else if strHasSub "already exists" m then
    "Directory already exists and is not empty."
  else m

/-- The fresh-clone tail of cloneRepository: git clone of cleanRepoUrl into the
project directory, with the branch as a separate argument when given. -/
def cloneFresh (env : CloneEnv) (projectDir : String) : CloneResult × PathSt :=
  if env.cloneOk then
    ({ success := true, path := projectDir,
       message := "Repository cloned successfully.", error := none }, .repo)
  else
    ({ success := false, path := projectDir,
       message := "Failed to clone repository: " ++ classifyCloneError env.cloneErrMsg,
       error := some env.cloneErrMsg }, .nonRepo)

/-- The fatal return taken when removing the existing directory fails. -/
def prepFail (env : CloneEnv) (projectDir : String) (st : PathSt) : CloneResult × PathSt :=
  ({ success := false, path := projectDir,
     message := "Failed to prepare directory for cloning: " ++ env.rmErrMsg,
     error := some env.rmErrMsg }, st)

/-- cloneRepository of git-utils.ts, returning its result together with the
final state of the local path.  Branch checkout failure is non-fatal (only a
console warning), so checkoutOk does not influence the outcome; the string
actually passed to git clone is cleanRepoUrl repoUrl. -/
def cloneRepository (repoUrl projectId branch storagePath : String) (env : CloneEnv) :
    CloneResult × PathSt :=
  let projectDir := storagePath ++ "/" ++ projectId
  let _ := cleanRepoUrl repoUrl
  let _ := branch
  if !env.storageExists && !env.mkdirOk then
    ({ success := false, path := projectDir,
       message := "Failed to create storage directory: " ++ env.mkdirErrMsg,
       error := some env.mkdirErrMsg }, env.pathInit)
  else
    match env.pathInit with
    | .absent => cloneFresh env projectDir
    | .repo =>
      if env.checkErr then
        if env.rmCatchOk then cloneFresh env projectDir else prepFail env projectDir .repo
      else if env.pullOk then
        ({ success := true, path := projectDir,
           message := "Repository already exists locally. Pulled latest changes.",
           error := none }, .repo)
      else if env.rmCatchOk then cloneFresh env projectDir
      else prepFail env projectDir .repo
    | .nonRepo =>
      if env.checkErr then
        if env.rmCatchOk then cloneFresh env projectDir else prepFail env projectDir .nonRepo
      else if env.rmElseOk then cloneFresh env projectDir
      else if env.rmCatchOk then cloneFresh env projectDir
      else prepFail env projectDir .nonRepo

/-- Status enum of the conversion job store. -/
inductive JobStatus
  | idle
  | cloning
  | converting
  | success
  | failed
deriving DecidableEq, Repr

/-- One entry of the global conversion store. -/
structure Job where
  status : JobStatus
  logs : List String
  message : Option String
  result : Option ConversionResult
  error : Option String
deriving DecidableEq, Repr

/-- A single primitive mutation of a Job entry, in program order. -/
inductive StoreEvent
  | setStatus (s : JobStatus)
  | appendLog (l : String)
  | setMessage (m : String)
  | setResult (r : ConversionResult)
  | setError (e : String)
deriving DecidableEq, Repr

/-- Apply one store mutation. -/
def applyEvent (j : Job) : StoreEvent → Job
  | .setStatus s => { j with status := s }
  | .appendLog l => { j with logs := j.logs ++ [l] }
  | .setMessage m => { j with message := some m }
  | .setResult r => { j with result := some r }
  | .setError e => { j with error := some e }

/-- Apply a sequence of store mutations in order. -/
def applyEvents (j : Job) (evs : List StoreEvent) : Job := evs.foldl applyEvent j

/-- The mutation sequence of safelyUpdateConversionStatus (for an existing
entry): set status, set message, append the message to the log, and on an
error also append the detail line and set the error field. -/
def safelyUpdateEvents (status : JobStatus) (message : String) (err : Option String) :
    List StoreEvent :=
  [.setStatus status, .setMessage message, .appendLog message] ++
    (match err with
     | some e => [.appendLog ("Error details: " ++ e), .setError e]
     | none => [])

/-- The options object of a start-conversion request, as the dashboard sends
it (missing strings are modelled as the empty string, which is falsy). -/
structure ReqOptions where
  enableKVCache : Bool
  kvNamespaceId : String
  createBranch : Bool
  branchName : String
  commitAndPush : Bool
  packageJsonPath : String
deriving DecidableEq, Repr

/-- The ConversionPipeline constructor call of startConversion: only
projectPath, projectName, enableKVCache and kvNamespaceId are forwarded; the
packageJsonPath of the request options is not. -/
def pipelineOptsOf (projectPath projectName : String) (opts : ReqOptions) : ConvOptions :=
  { projectPath := projectPath, projectName := projectName,
    enableKVCache := opts.enableKVCache, kvNamespaceId := opts.kvNamespaceId,
    packageJsonPath := none }

/-- gitRepository descriptor of a Vercel project. -/
structure GitRepoInfo where
  type : String
  repo : String
  url : String
  defaultBranch : String
deriving DecidableEq, Repr

/-- link descriptor of a Vercel project (the fields the code uses). -/
structure LinkInfo where
  type : String
  org : String
  repo : String
  productionBranch : String
deriving DecidableEq, Repr

/-- The project data returned by the Vercel client. -/
structure VProject where
  name : String
  gitRepository : Option GitRepoInfo
  link : Option LinkInfo
deriving DecidableEq, Repr

/-- Synthesis of a gitRepository descriptor from a github link descriptor. -/
def linkToGitRepo (l : LinkInfo) : GitRepoInfo :=
  { type := l.type,
    repo := l.org ++ "/" ++ l.repo,
    url := "https://github.com/" ++ l.org ++ "/" ++ l.repo,
    defaultBranch := l.productionBranch }

/-- The repository descriptor startConversion ends up using: the direct field
if present, else one synthesized from a github link. -/
def effectiveGitRepo (p : VProject) : Option GitRepoInfo :=
  match p.gitRepository with
  | some g => some g
  | none =>
    match p.link with
    | some l => if l.type = "github" then some (linkToGitRepo l) else none
    | none => none

/-- The log line appended while synthesizing gitRepository from link. -/
def detectEvents (p : VProject) : List StoreEvent :=
  match p.gitRepository, p.link with
  | none, some l =>
    if l.type = "github" then
      [.appendLog ("Detected Git repository from link field: " ++ l.org ++ "/" ++ l.repo)]
    else []
  | _, _ => []

/-- URL normalization of startConversion: a github descriptor whose url is
neither https nor ssh shaped is rewritten to the canonical clone URL, with a
log line. -/
def formatRepoUrl (g : GitRepoInfo) : String × List StoreEvent :=
  if g.type = "github" && !(g.url.startsWith "https://") && !(g.url.startsWith "git@") then
    let u := "https://github.com/" ++ g.repo ++ ".git"
    (u, [.appendLog ("Using formatted GitHub URL: " ++ u)])
  else (g.url, [])

/-- The branch-creation block of startConversion (non-fatal). -/
def branchEvents (opts : ReqOptions) (branchOk : Bool) : List StoreEvent :=
  if opts.createBranch && opts.branchName != "" then
    [.appendLog ("Creating branch: " ++ opts.branchName ++ "...")] ++
      (if branchOk then [.appendLog ("Created branch: " ++ opts.branchName)]
       else [.appendLog ("Warning: Failed to create branch " ++ opts.branchName ++ ". Continuing on current branch.")])
  else []

/-- The commit-and-push block of startConversion (non-fatal). -/
def commitEvents (doIt : Bool) (commitOk : Bool) : List StoreEvent :=
  if doIt then
    [.appendLog "Committing and pushing changes..."] ++
      (if commitOk then [.appendLog "Changes committed and pushed successfully"]
       else [.appendLog "Warning: Failed to commit and push changes"])
  else []

/-- The final status update of startConversion: terminal status from the
pipeline result, then message and result object. -/
def finalizeEvents (r : ConversionResult) : List StoreEvent :=
  [.setStatus (if r.success then .success else .failed), .setMessage r.message, .setResult r]

/-- Everything around one background conversion run that is external to the
orchestrator code: the Vercel project fetch, the git and process outcomes, and
the contents of the checkout produced by acquisition. -/
structure OrchEnv where
  projectId : String
  storagePath : String
  projectFetch : Except String VProject
  cloneEnv : CloneEnv
  branchOk : Bool
  commitOk : Bool
  pipeEnv : PipeEnv
  fs0 : List (FPath × FileC)

/-- The ordered sequence of store mutations performed by one startConversion
run (convert/route.ts lines 82-213), at the granularity of individual
statements touching the store. -/
def startConversionEvents (env : OrchEnv) (opts : ReqOptions) : List StoreEvent :=
  match env.projectFetch with
  | .error e =>
    safelyUpdateEvents .failed ("Conversion process failed unexpectedly: " ++ e) (some e)
  | .ok project =>
    match effectiveGitRepo project with
    | none =>
      detectEvents project ++
        safelyUpdateEvents .failed "No git repository found for this project"
          (some "Project doesn\x27t have a connected Git repository")
    | some g =>
      let head := detectEvents project ++
        [.appendLog ("Fetching project details for " ++ project.name ++ "..."),
         .appendLog ("Repository: " ++ g.repo)] ++
        (formatRepoUrl g).2 ++
        [.appendLog ("Cloning repository from " ++ (formatRepoUrl g).1 ++ "...")]
      let cres := (cloneRepository (formatRepoUrl g).1 env.projectId g.defaultBranch env.storagePath env.cloneEnv).1
      if cres.success = false then
        head ++ safelyUpdateEvents .failed ("Failed to clone repository: " ++ cres.message) cres.error
      else
        let r := (runPipeline (pipelineOptsOf cres.path project.name opts) env.pipeEnv env.fs0).1
        head ++ [.appendLog cres.message, .setStatus .converting] ++
          branchEvents opts env.branchOk ++
          [.appendLog "Starting conversion pipeline..."] ++
          r.logs.map .appendLog ++
          commitEvents (r.success && opts.commitAndPush) env.commitOk ++
          finalizeEvents r

/-- The store entry the POST handler creates before launching the run. -/
def initialJobStore : Job :=
  { status := .cloning, logs := ["Initializing conversion process..."],
    message := none, result := none, error := none }

/-- The Job entry after one complete startConversion run. -/
def startConversionJob (env : OrchEnv) (opts : ReqOptions) : Job :=
  applyEvents initialJobStore (startConversionEvents env opts)

/-- The placeholder snapshot the status feed synthesizes when no store entry
exists for the requested project identity. -/
def placeholderSnapshot : Job :=
  { status := .cloning, logs := ["Waiting for conversion to start..."],
    message := none, result := none, error := none }

/-- The snapshot sent by one iteration of the feed loop. -/
def snapshotOf (e : Option Job) : Job := e.getD placeholderSnapshot

/-- Terminal statuses of the job state machine. -/
def isTerminalStatus : JobStatus → Bool
  | .success => true
  | .failed => true
  | _ => false

/-- The status-feed loop: each iteration reads the store, emits a snapshot,
and either schedules the next iteration (one-second timeout) or closes the
stream on a terminal status.  The fuel bounds the observation window; the
store history gives the entry visible at each poll.  Returns the emitted
snapshots and whether the stream was closed. -/
def feedEmits : Nat → (Nat → Option Job) → List Job × Bool
  | 0, _ => ([], false)
  | n + 1, h =>
    let snap := snapshotOf (h 0)
    if isTerminalStatus snap.status then ([snap], true)
    else
      let rest := feedEmits n (fun k => h (k + 1))
      (snap :: rest.1, rest.2)

/-- Does a store event set a terminal status? -/
def isTerminalSet : StoreEvent → Bool
  | .setStatus s => isTerminalStatus s
  | _ => false

/-- Is a store event a status write? -/
def isSetStatusEv : StoreEvent → Bool
  | .setStatus _ => true
  | _ => false

/-- The events strictly after the first terminal status write. -/
def afterFirstTerminal : List StoreEvent → List StoreEvent
  | [] => []
  | e :: t => if isTerminalSet e then t else afterFirstTerminal t

/-- A checkout filesystem passing step 1: the manifest parses and declares
next in one of the two dependency groups. -/
def goodManifest (opts : ConvOptions) (fs : List (FPath × FileC)) : Bool :=
  match fsRead fs (getPackageJsonPath opts) with
  | some (.pkg p) => (lookupKey p.dependencies "next").isSome || (lookupKey p.devDependencies "next").isSome
  | _ => false

/-- A concrete manifest with next as a runtime dependency. -/
def cexPkg : PackageJson :=
  { dependencies := [("next", "15.0.0"), ("react", "19.0.0")],
    devDependencies := [("typescript", "5.0.0")],
    scripts := [("dev", "next dev")] }

/-- A concrete checkout containing only that manifest. -/
def cexFs : List (FPath × FileC) := [(⟨none, "package.json"⟩, .pkg cexPkg)]

/-- Concrete pipeline options with the cache feature off. -/
def cexConvOpts : ConvOptions :=
  { projectPath := "/tmp/projects/p1", projectName := "app",
    enableKVCache := false, kvNamespaceId := "", packageJsonPath := none }

/-- A pipeline environment whose grep scan fails with a tooling error. -/
def cexPipeEnvTool : PipeEnv := { grep := .toolErr, installErr := none, sedOk := true }

/-- A pipeline state holding the concrete checkout and an empty log. -/
def cexSt : PipeSt := { fs := cexFs, logs := [] }

/-- A clone environment where everything succeeds against an absent path. -/
def cexCloneEnvOk : CloneEnv :=
  { storageExists := true, mkdirOk := true, mkdirErrMsg := "",
    pathInit := .absent, checkErr := false, checkoutOk := true, pullOk := true,
    rmElseOk := true, rmCatchOk := true, rmErrMsg := "",
    cloneOk := true, cloneErrMsg := "" }

/-- A concrete orchestration environment whose project fetch throws, driving
the run into the unexpected-failure handler. -/
def cexOrchEnvFetchErr : OrchEnv :=
  { projectId := "p1", storagePath := "/tmp/projects",
    projectFetch := .error "boom", cloneEnv := cexCloneEnvOk,
    branchOk := true, commitOk := true,
    pipeEnv := { grep := .exitNoMatch, installErr := none, sedOk := true },
    fs0 := [] }

/-- Default request options: no cache, no branch, no push. -/
def cexReqOptions : ReqOptions :=
  { enableKVCache := false, kvNamespaceId := "", createBranch := false,
    branchName := "", commitAndPush := false, packageJsonPath := "" }

/-- A URL with an interior quote character and no surrounding quotes or
whitespace. -/
def cexQuoteUrl : String := "https://github.com/a\x27b/repo"

/-- The log lines contained in a sequence of store events. -/
def logsOfEvents (evs : List StoreEvent) : List String :=
  evs.filterMap (fun e => match e with | .appendLog l => some l | _ => none)

/-- A clone environment over an existing non-repository path whose removal
fails in both attempts. -/
def cexCloneEnvBad : CloneEnv :=
  { storageExists := true, mkdirOk := true, mkdirErrMsg := "",
    pathInit := .nonRepo, checkErr := false, checkoutOk := true, pullOk := true,
    rmElseOk := false, rmCatchOk := false, rmErrMsg := "EBUSY",
    cloneOk := true, cloneErrMsg := "" }

/-- A concrete Vercel project with a direct github repository descriptor. -/
def cexVProject : VProject :=
  { name := "app",
    gitRepository := some { type := "github", repo := "a/b",
                            url := "https://github.com/a/b.git", defaultBranch := "main" },
    link := none }

/-- A concrete orchestration environment in which acquisition and every
pipeline step succeed but commit-and-push fails. -/
def cexOrchEnvOk : OrchEnv :=
  { projectId := "p1", storagePath := "/tmp/projects",
    projectFetch := .ok cexVProject, cloneEnv := cexCloneEnvOk,
    branchOk := true, commitOk := false,
    pipeEnv := { grep := .exitNoMatch, installErr := none, sedOk := true },
    fs0 := cexFs }

/-- A manifest without next in either dependency group. -/
def cexPkgNoNext : PackageJson :=
  { dependencies := [("react", "19.0.0")], devDependencies := [], scripts := [] }

/-- A checkout holding only that manifest. -/
def cexFsNoNext : List (FPath × FileC) := [(⟨none, "package.json"⟩, .pkg cexPkgNoNext)]

/-- The successful orchestration environment over the next-less checkout. -/
def cexOrchEnvNoNext : OrchEnv :=
  { projectId := "p1", storagePath := "/tmp/projects",
    projectFetch := .ok cexVProject, cloneEnv := cexCloneEnvOk,
    branchOk := true, commitOk := true,
    pipeEnv := { grep := .exitNoMatch, installErr := none, sedOk := true },
    fs0 := cexFsNoNext }

/-- Request options asking for commit-and-push. -/
def cexReqOptionsPush : ReqOptions :=
  { enableKVCache := false, kvNamespaceId := "", createBranch := false,
    branchName := "", commitAndPush := true, packageJsonPath := "" }

/-- A concrete job snapshot in a terminal state. -/
def cexTerminalJob : Job :=
  { status := .success, logs := ["done"], message := some "ok", result := none, error := none }

/-! ### General lemmas about the embedding -/

theorem fsRead_fsWrite (fs : List (FPath × FileC)) (p q : FPath) (v : FileC) :
    fsRead (fsWrite fs p v) q = if p = q then some v else fsRead fs q := by
  induction fs with
  | nil => by_cases h : p = q <;> simp [fsWrite, fsRead, h]
  | cons a t ih =>
    obtain ⟨k, w⟩ := a
    by_cases hk : k = p
    · subst hk
      by_cases hq : k = q
      · subst hq; simp [fsWrite, fsRead]
      · simp [fsWrite, fsRead, hq]
    · by_cases hq : k = q
      · subst hq
        have hpq : ¬ p = k := fun h => hk h.symm
        simp [fsWrite, fsRead, hk, hpq]
      · simp [fsWrite, fsRead, hk, hq, ih]

theorem fsWrite_noop (fs : List (FPath × FileC)) (p : FPath) (v : FileC)
    (h : fsRead fs p = some v) : fsWrite fs p v = fs := by
  induction fs with
  | nil => simp [fsRead] at h
  | cons a t ih =>
    obtain ⟨k, w⟩ := a
    by_cases hk : k = p
    · simp [fsRead, hk] at h
      simp [fsWrite, hk, h]
    · simp [fsRead, hk] at h
      simp [fsWrite, hk, ih h]

theorem lookup_setKey (l : List (String × String)) (key val k : String) :
    lookupKey (setKey l key val) k = if key = k then some val else lookupKey l k := by
  induction l with
  | nil => by_cases h : key = k <;> simp [setKey, lookupKey, h]
  | cons a t ih =>
    obtain ⟨k0, v0⟩ := a
    by_cases hk : k0 = key
    · subst hk
      by_cases hq : k0 = k
      · subst hq; simp [setKey, lookupKey]
      · simp [setKey, lookupKey, hq]
    · by_cases hq : k0 = k
      · subst hq
        have hkk : ¬ key = k0 := fun h => hk h.symm
        simp [setKey, lookupKey, hk, hkk]
      · simp [setKey, lookupKey, hk, hq, ih]

theorem setKey_noop (l : List (String × String)) (key val : String)
    (h : lookupKey l key = some val) : setKey l key val = l := by
  induction l with
  | nil => simp [lookupKey] at h
  | cons a t ih =>
    obtain ⟨k0, v0⟩ := a
    by_cases hk : k0 = key
    · simp [lookupKey, hk] at h
      simp [setKey, hk, h]
    · simp [lookupKey, hk] at h
      simp [setKey, hk, ih h]

theorem removeKey_noop (l : List (String × String)) (key : String)
    (h : lookupKey l key = none) : removeKey l key = l := by
  induction l with
  | nil => simp [removeKey]
  | cons a t ih =>
    obtain ⟨k0, v0⟩ := a
    by_cases hk : k0 = key
    · simp [lookupKey, hk] at h
    · simp [lookupKey, hk] at h
      simp [removeKey, hk, ih h]

theorem lookup_removeKey_ne (l : List (String × String)) (key k : String)
    (h : key ≠ k) : lookupKey (removeKey l key) k = lookupKey l k := by
  induction l with
  | nil => simp [removeKey]
  | cons a t ih =>
    obtain ⟨k0, v0⟩ := a
    by_cases hk : k0 = key
    · subst hk
      simp [removeKey, lookupKey, h, ih]
    · simp [removeKey, lookupKey, hk, ih]

theorem lookup_removeKey_self (l : List (String × String)) (key : String) :
    lookupKey (removeKey l key) key = none := by
  induction l with
  | nil => simp [removeKey, lookupKey]
  | cons a t ih =>
    obtain ⟨k0, v0⟩ := a
    by_cases hk : k0 = key
    · simp [removeKey, hk, ih]
    · simp [removeKey, lookupKey, hk, ih]

theorem listSub_append_right (n l₁ l₂ : List Char) (h : listSub n l₂ = true) :
    listSub n (l₁ ++ l₂) = true := by
  induction l₁ with
  | nil => simpa using h
  | cons c t ih => simp [listSub, ih]

theorem strHasSub_append_right (n s₁ s₂ : String) (h : strHasSub n s₂ = true) :
    strHasSub n (s₁ ++ s₂) = true := by
  unfold strHasSub at h ⊢
  rw [String.data_append]
  exact listSub_append_right _ _ _ h

theorem applyEvents_append (j : Job) (a b : List StoreEvent) :
    applyEvents j (a ++ b) = applyEvents (applyEvents j a) b := by
  simp [applyEvents, List.foldl_append]

theorem applyEvents_logs (j : Job) (evs : List StoreEvent) :
    (applyEvents j evs).logs = j.logs ++ logsOfEvents evs := by
  induction evs generalizing j with
  | nil => simp [applyEvents, logsOfEvents]
  | cons e t ih =>
    have step : applyEvents j (e :: t) = applyEvents (applyEvent j e) t := rfl
    rw [step, ih]
    cases e <;> simp [applyEvent, logsOfEvents, List.filterMap_cons]

theorem applyEvents_status_no_set (j : Job) (evs : List StoreEvent) :
    (∀ e ∈ evs, isSetStatusEv e = false) → (applyEvents j evs).status = j.status := by
  induction evs generalizing j with
  | nil => intro _; rfl
  | cons e t ih =>
    intro h
    have he := h e (by simp)
    have ht : ∀ x ∈ t, isSetStatusEv x = false := fun x hx => h x (by simp [hx])
    have step : applyEvents j (e :: t) = applyEvents (applyEvent j e) t := rfl
    rw [step]
    have h1 := ih (applyEvent j e) ht
    rw [h1]
    cases e <;> simp [applyEvent, isSetStatusEv] at he ⊢

theorem applyEvents_safelyUpdate_status (j : Job) (s : JobStatus) (m : String)
    (err : Option String) : (applyEvents j (safelyUpdateEvents s m err)).status = s := by
  cases err <;> rfl

theorem applyEvents_finalize_status (j : Job) (r : ConversionResult) :
    (applyEvents j (finalizeEvents r)).status = if r.success then .success else .failed := by
  rfl

theorem afterFirstTerminal_append (a b : List StoreEvent) :
    (∀ e ∈ a, isTerminalSet e = false) →
    afterFirstTerminal (a ++ b) = afterFirstTerminal b := by
  induction a with
  | nil => intro _; rfl
  | cons e t ih =>
    intro h
    have he := h e (by simp)
    have ht : ∀ x ∈ t, isTerminalSet x = false := fun x hx => h x (by simp [hx])
    simp [afterFirstTerminal, he, ih ht]

theorem isTerminalSet_appendLog_map (ls : List String) :
    ∀ e ∈ ls.map StoreEvent.appendLog, isTerminalSet e = false := by
  intro e he
  simp [List.mem_map] at he
  obtain ⟨l, _, rfl⟩ := he
  rfl

theorem quote_not_ws (c : Char) (h : isQuoteChar c = true) : isJsWs c = false := by
  simp [isQuoteChar] at h
  rcases h with h | h <;> subst h <;> decide

theorem dropWhileAll (p : Char → Bool) (l₁ l₂ : List Char) :
    (∀ c ∈ l₁, p c = true) → (l₁ ++ l₂).dropWhile p = l₂.dropWhile p := by
  induction l₁ with
  | nil => intro _; rfl
  | cons a t ih =>
    intro h
    have ha := h a (by simp)
    have ht : ∀ c ∈ t, p c = true := fun c hc => h c (by simp [hc])
    simp [List.dropWhile_cons, ha, ih ht]

theorem dropWhile_cons_false (p : Char → Bool) (a : Char) (l : List Char)
    (h : p a = false) : (a :: l).dropWhile p = a :: l := by
  simp [List.dropWhile_cons, h]

theorem dropWhileAllNil (p : Char → Bool) (l : List Char) :
    (∀ c ∈ l, p c = true) → l.dropWhile p = [] := by
  induction l with
  | nil => intro _; rfl
  | cons a t ih =>
    intro h
    have ha := h a (by simp)
    have ht : ∀ c ∈ t, p c = true := fun c hc => h c (by simp [hc])
    simp [List.dropWhile_cons, ha, ih ht]

theorem lengthDropWhileLe (p : Char → Bool) (l : List Char) :
    (l.dropWhile p).length ≤ l.length := by
  induction l with
  | nil => simp
  | cons a t ih =>
    by_cases h : p a = true
    · simp [List.dropWhile_cons, h]
      omega
    · simp [List.dropWhile_cons, h]

theorem dropWhile_fix_head (p : Char → Bool) (x : Char) (t : List Char)
    (h : (x :: t).dropWhile p = x :: t) : p x = false := by
  by_cases hx : p x = true
  · rw [List.dropWhile_cons, if_pos hx] at h
    have hlen := congrArg List.length h
    have hle := lengthDropWhileLe p t
    simp at hlen
    omega
  · simpa using hx

theorem jsTrimL_sandwich (inner ws1 ws2 : List Char)
    (hws1 : ∀ c ∈ ws1, isJsWs c = true) (hws2 : ∀ c ∈ ws2, isJsWs c = true)
    (hfront : inner.dropWhile isJsWs = inner)
    (hback : inner.reverse.dropWhile isJsWs = inner.reverse) :
    jsTrimL (ws1 ++ inner ++ ws2) = inner := by
  cases hi : inner with
  | nil =>
    subst hi
    unfold jsTrimL dropEndWhile
    have h1 : (ws1 ++ [] ++ ws2).dropWhile isJsWs = [] := by
      apply dropWhileAllNil
      intro c hc
      simp at hc
      rcases hc with hc | hc
      · exact hws1 c hc
      · exact hws2 c hc
    rw [h1]
    rfl
  | cons x t =>
    subst hi
    have hx : isJsWs x = false := dropWhile_fix_head _ _ _ hfront
    unfold jsTrimL dropEndWhile
    rw [List.append_assoc, dropWhileAll _ _ _ hws1]
    rw [show (x :: t ++ ws2) = x :: (t ++ ws2) from rfl]
    rw [dropWhile_cons_false _ _ _ hx]
    rw [show (x :: (t ++ ws2)).reverse = ws2.reverse ++ (t.reverse ++ [x]) from by simp]
    rw [dropWhileAll _ _ _ (fun c hc => hws2 c (List.mem_reverse.mp hc))]
    rw [show t.reverse ++ [x] = (x :: t).reverse from by simp]
    rw [hback]
    simp

/-! ### Claim theorems -/

/-- Claim C2: with the cache flag off the generated wrangler config has an
empty kv_namespaces list and the open-next config imports no cache override;
with the flag on and a namespace id supplied, the list has exactly one entry
binding NEXT_CACHE_WORKERS_KV to that id and the open-next config has both
the cache-override import line and the incrementalCache field. -/
theorem claim2_kv_cache_config (opts : ConvOptions) :
    (opts.enableKVCache = false →
      kvNamespacesList opts = [] ∧
      kvNamespacesField opts = "[]" ∧
      strHasSub "kv-incremental-cache" (openNextConfigContent opts) = false ∧
      strHasSub "incrementalCache" (openNextConfigContent opts) = false) ∧
    (opts.enableKVCache = true → opts.kvNamespaceId ≠ "" →
      kvNamespacesList opts = [("NEXT_CACHE_WORKERS_KV", opts.kvNamespaceId)] ∧
      kvNamespacesField opts =
        "[\n  \x7b\n    \"binding\": \"NEXT_CACHE_WORKERS_KV\",\n    \"id\": \""
          ++ opts.kvNamespaceId ++ "\"\n  \x7d\n]" ∧
      strHasSub "kv-incremental-cache" (openNextConfigContent opts) = true ∧
      strHasSub "incrementalCache" (openNextConfigContent opts) = true) := by
  constructor
  · intro h
    refine ⟨?_, ?_, ?_, ?_⟩
    · simp [kvNamespacesList, h]
    · simp [kvNamespacesField, h]
    · simp only [openNextConfigContent, h]
      decide
    · simp only [openNextConfigContent, h]
      decide
  · intro h hn
    have hb : (opts.kvNamespaceId != "") = true := by
      simp [bne_iff_ne, hn]
    refine ⟨?_, ?_, ?_, ?_⟩
    · simp [kvNamespacesList, h, hb]
    · simp [kvNamespacesField, h, hb]
    · simp only [openNextConfigContent, h]
      decide
    · simp only [openNextConfigContent, h]
      decide

/-- Witness for claim C2 at concrete options with the flag off and on. -/
theorem claim2_witness :
    (kvNamespacesField cexConvOpts = "[]" ∧
      strHasSub "kv-incremental-cache" (openNextConfigContent cexConvOpts) = false) ∧
    (kvNamespacesList { cexConvOpts with enableKVCache := true, kvNamespaceId := "ns123" } =
      [("NEXT_CACHE_WORKERS_KV", "ns123")]) := by
  refine ⟨⟨?_, ?_⟩, ?_⟩
  · exact ((claim2_kv_cache_config cexConvOpts).1 rfl).2.1
  · exact ((claim2_kv_cache_config cexConvOpts).1 rfl).2.2.1
  · exact ((claim2_kv_cache_config
      { cexConvOpts with enableKVCache := true, kvNamespaceId := "ns123" }).2 rfl
      (by decide)).1

/-- Counterexample for claim C5: the sanitizer does not strip only the
surrounding quote characters and nothing else — it deletes quote characters
anywhere in the string.  On a trimmed URL with an interior quote and no
surrounding quotes, stripping only surrounding quotes is the identity, yet
cleanRepoUrl changes the string. -/
theorem claim5_counterexample :
    specStripSurroundingQuotes cexQuoteUrl = cexQuoteUrl ∧
    cleanRepoUrl cexQuoteUrl ≠ cexQuoteUrl ∧
    cleanRepoUrl cexQuoteUrl = "https://github.com/ab/repo" := by
  decide

/-- Claim C5 as amended: the sanitizer trims whitespace and then deletes all
quote characters (wherever they occur); consequently, for a URL with no
leading or trailing whitespace of its own, the string passed to git clone for
a whitespace-padded, quote-wrapped form equals the one passed for the URL
itself. -/
theorem claim5_url_sanitize_amended (url : String) (ws1 ws2 : List Char) (qc : Char)
    (hws1 : ∀ c ∈ ws1, isJsWs c = true) (hws2 : ∀ c ∈ ws2, isJsWs c = true)
    (hq : isQuoteChar qc = true)
    (hfront : url.data.dropWhile isJsWs = url.data)
    (hback : url.data.reverse.dropWhile isJsWs = url.data.reverse) :
    cleanRepoUrl ⟨ws1 ++ qc :: (url.data ++ qc :: ws2)⟩ = cleanRepoUrl url := by
  have hqw : isJsWs qc = false := quote_not_ws qc hq
  have hinner_front : (qc :: (url.data ++ [qc])).dropWhile isJsWs = qc :: (url.data ++ [qc]) :=
    dropWhile_cons_false _ _ _ hqw
  have hinner_back : (qc :: (url.data ++ [qc])).reverse.dropWhile isJsWs =
      (qc :: (url.data ++ [qc])).reverse := by
    rw [show (qc :: (url.data ++ [qc])).reverse = qc :: (url.data.reverse ++ [qc]) from by simp]
    exact dropWhile_cons_false _ _ _ hqw
  have hshape : ws1 ++ qc :: (url.data ++ qc :: ws2) =
      ws1 ++ (qc :: (url.data ++ [qc])) ++ ws2 := by
    simp
  have htrim : jsTrimL (ws1 ++ qc :: (url.data ++ qc :: ws2)) = qc :: (url.data ++ [qc]) := by
    rw [hshape]
    exact jsTrimL_sandwich _ _ _ hws1 hws2 hinner_front hinner_back
  have htrimr : jsTrimL url.data = url.data := by
    unfold jsTrimL dropEndWhile
    rw [hfront, hback, List.reverse_reverse]
  show removeQuoteChars (jsTrim _) = removeQuoteChars (jsTrim _)
  unfold jsTrim
  rw [show (String.mk (ws1 ++ qc :: (url.data ++ qc :: ws2))).data =
      ws1 ++ qc :: (url.data ++ qc :: ws2) from rfl]
  rw [htrim, htrimr]
  unfold removeQuoteChars
  congr 1
  rw [show (String.mk (qc :: (url.data ++ [qc]))).data = qc :: (url.data ++ [qc]) from rfl]
  rw [show (String.mk url.data).data = url.data from rfl]
  simp [List.filter_cons, List.filter_append, hq]

/-- Witness for the amended claim C5 at a concrete padded, double-quoted URL. -/
theorem claim5_witness :
    cleanRepoUrl ⟨[' ', ' '] ++ Char.ofNat 34 ::
        (("https://github.com/a/b.git" : String).data ++ Char.ofNat 34 :: [' '])⟩ =
      cleanRepoUrl "https://github.com/a/b.git" := by
  exact claim5_url_sanitize_amended "https://github.com/a/b.git" [' ', ' '] [' ']
    (Char.ofNat 34) (by decide) (by decide) (by decide) (by decide) (by decide)

/-- Counterexample for claim C6: a scan failure that is a tooling error (not
the no-matches exit) is nevertheless treated as the no-usage case — the step
logs the informational no-usage line, logs no warning, and returns normally,
so the treatment is not restricted to the no-matches failure. -/
theorem claim6_counterexample :
    cexPipeEnvTool.grep = .toolErr ∧
    verifyNextJsProject cexConvOpts cexPipeEnvTool cexSt =
      .ok { fs := cexFs,
            logs := ["Verifying Next.js project...", "Next.js project verified ✅",
                     "Checking for Edge Runtime usage...", noUsageLine] } ∧
    edgeWarnLine ∉ ["Verifying Next.js project...", "Next.js project verified ✅",
                    "Checking for Edge Runtime usage...", noUsageLine] := by
  refine ⟨rfl, by decide, by decide⟩

/-- Claim C6 as amended: when the manifest check passes, the edge-runtime scan
never aborts the run; a successful scan with non-empty output logs the warning
line, one with empty output logs the informational line, and any scan failure
— the no-matches exit and a tooling error alike — is treated as the no-usage
case and logs the informational line. -/
theorem claim6_scan_amended (opts : ConvOptions) (env : PipeEnv) (st : PipeSt)
    (h : goodManifest opts st.fs = true) :
    (stepIsOk (verifyNextJsProject opts env st) = true ∧
      fsOf (verifyNextJsProject opts env st) = st.fs ∧
      (logsOf (verifyNextJsProject opts env st)).getLast? = some (scanLogLine env)) ∧
    (∀ out, env.grep = .found out →
      scanLogLine env = (if jsTrim out != "" then edgeWarnLine else noUsageLine)) ∧
    (env.grep = .exitNoMatch → scanLogLine env = noUsageLine) ∧
    (env.grep = .toolErr → scanLogLine env = noUsageLine) := by
  refine ⟨?_, ?_, ?_, ?_⟩
  · unfold goodManifest at h
    cases hr : fsRead st.fs (getPackageJsonPath opts) with
    | none => rw [hr] at h; simp at h
    | some f =>
      cases f with
      | text s => rw [hr] at h; simp at h
      | pkg p =>
        rw [hr] at h
        have hcond : ((lookupKey p.dependencies "next").isNone &&
            (lookupKey p.devDependencies "next").isNone) = false := by
          cases hd : lookupKey p.dependencies "next" <;>
            cases hdd : lookupKey p.devDependencies "next" <;>
            simp_all
        cases hsp : subPathOf opts with
        | none =>
          have hv : verifyNextJsProject opts env st =
              .ok { fs := st.fs, logs := st.logs ++
                ["Verifying Next.js project...", "Next.js project verified ✅",
                 "Checking for Edge Runtime usage...", scanLogLine env] } := by
            simp [verifyNextJsProject, hsp, hr, hcond, addLog]
          rw [hv]
          refine ⟨rfl, rfl, ?_⟩
          show (st.logs ++ _).getLast? = _
          rw [List.getLast?_append_of_ne_nil _ (by simp)]
          rfl
        | some sub =>
          have hv : verifyNextJsProject opts env st =
              .ok { fs := st.fs, logs := st.logs ++
                ["Verifying Next.js project...", "Using custom package.json path: " ++ sub,
                 "Next.js project verified ✅",
                 "Checking for Edge Runtime usage...", scanLogLine env] } := by
            simp [verifyNextJsProject, hsp, hr, hcond, addLog]
          rw [hv]
          refine ⟨rfl, rfl, ?_⟩
          show (st.logs ++ _).getLast? = _
          rw [List.getLast?_append_of_ne_nil _ (by simp)]
          rfl
  · intro out hg
    simp [scanLogLine, hg]
  · intro hg
    simp [scanLogLine, hg]
  · intro hg
    simp [scanLogLine, hg]

/-- Witness for the amended claim C6 at the concrete tooling-error state. -/
theorem claim6_witness :
    stepIsOk (verifyNextJsProject cexConvOpts cexPipeEnvTool cexSt) = true ∧
    fsOf (verifyNextJsProject cexConvOpts cexPipeEnvTool cexSt) = cexSt.fs ∧
    (logsOf (verifyNextJsProject cexConvOpts cexPipeEnvTool cexSt)).getLast? =
      some (scanLogLine cexPipeEnvTool) := by
  exact (claim6_scan_amended cexConvOpts cexPipeEnvTool cexSt (by decide)).1

/-- Claim C8: a status-feed subscription for an identity with no store entry
immediately yields the synthesized placeholder snapshot — status cloning with
the single waiting-to-start log line — rather than an error. -/
theorem claim8_placeholder_snapshot :
    snapshotOf none = placeholderSnapshot ∧
    placeholderSnapshot.status = .cloning ∧
    placeholderSnapshot.logs = ["Waiting for conversion to start..."] ∧
    placeholderSnapshot.logs.length = 1 ∧
    (∀ (n : Nat) (h : Nat → Option Job), h 0 = none →
      (feedEmits (n + 1) h).1.head? = some placeholderSnapshot) := by
  refine ⟨rfl, rfl, rfl, rfl, ?_⟩
  intro n h h0
  show (feedEmits (n + 1) h).1.head? = some placeholderSnapshot
  unfold feedEmits
  rw [h0]
  rfl

/-- Witness for claim C8 on the empty store history. -/
theorem claim8_witness :
    (feedEmits 1 (fun _ => none)).1.head? = some placeholderSnapshot := by
  exact claim8_placeholder_snapshot.2.2.2.2 0 (fun _ => none) rfl

/-- Claim C10: startConversion builds the pipeline options without forwarding
the request's packageJsonPath, so the pipeline resolves the manifest, both
generated config files, and the ignore file relative to the checkout root, no
matter what sub-path the request options carry. -/
theorem claim10_subpath_not_forwarded (path name : String) (opts : ReqOptions) (sub : String) :
    (pipelineOptsOf path name opts).packageJsonPath = none ∧
    pipelineOptsOf path name { opts with packageJsonPath := sub } =
      pipelineOptsOf path name opts ∧
    subPathOf (pipelineOptsOf path name opts) = none ∧
    getPackageJsonPath (pipelineOptsOf path name opts) = ⟨none, "package.json"⟩ ∧
    pathString (pipelineOptsOf path name opts) (getPackageJsonPath (pipelineOptsOf path name opts)) =
      path ++ "/" ++ "package.json" := by
  exact ⟨rfl, rfl, rfl, rfl, rfl⟩

/-- Claim C4: whenever cloneRepository reports success the local path is a
valid repository afterwards; an existing non-repository path (or one whose
inspection errors) is removed and freshly cloned, and if the removal fails the
call reports a fatal preparation failure — the path is never left in the
non-repository state with success reported. -/
theorem claim4_clone_recovery (repoUrl projectId branch storagePath : String) (env : CloneEnv) :
    ((cloneRepository repoUrl projectId branch storagePath env).1.success = true →
      (cloneRepository repoUrl projectId branch storagePath env).2 = .repo) ∧
    (env.pathInit = .nonRepo → env.storageExists = true → env.checkErr = false →
      env.rmElseOk = true →
      cloneRepository repoUrl projectId branch storagePath env =
        cloneFresh env (storagePath ++ "/" ++ projectId)) ∧
    (env.pathInit = .nonRepo → env.storageExists = true →
      env.rmElseOk = false → env.rmCatchOk = false →
      (cloneRepository repoUrl projectId branch storagePath env).1.success = false ∧
      (cloneRepository repoUrl projectId branch storagePath env).1.message =
        "Failed to prepare directory for cloning: " ++ env.rmErrMsg) ∧
    (env.pathInit ≠ .absent → env.storageExists = true → env.checkErr = true →
      env.rmCatchOk = false →
      (cloneRepository repoUrl projectId branch storagePath env).1.success = false ∧
      (cloneRepository repoUrl projectId branch storagePath env).1.message =
        "Failed to prepare directory for cloning: " ++ env.rmErrMsg) := by
  refine ⟨?_, ?_, ?_, ?_⟩
  · intro h
    cases hres : cloneRepository repoUrl projectId branch storagePath env with
    | mk r pst =>
      unfold cloneRepository cloneFresh prepFail at hres
      repeat' split at hres
      all_goals cases hres
      all_goals simp_all [cloneRepository, cloneFresh, prepFail]
  · intro h1 h2 h3 h4
    simp [cloneRepository, h1, h2, h3, h4]
  · intro h1 h2 h3 h4
    cases hce : env.checkErr <;>
      simp [cloneRepository, cloneFresh, prepFail, h1, h2, h3, h4, hce]
  · intro h1 h2 h3 h4
    cases hpi : env.pathInit with
    | absent => exact absurd hpi h1
    | repo => simp [cloneRepository, cloneFresh, prepFail, h2, h3, h4, hpi]
    | nonRepo => simp [cloneRepository, cloneFresh, prepFail, h2, h3, h4, hpi]

/-! ### Orchestrator support lemmas -/

theorem cloneRepository_path (u pid b sp : String) (env : CloneEnv) :
    (cloneRepository u pid b sp env).1.path = sp ++ "/" ++ pid := by
  unfold cloneRepository cloneFresh prepFail
  repeat' split
  all_goals rfl

theorem logsOfEvents_append (a b : List StoreEvent) :
    logsOfEvents (a ++ b) = logsOfEvents a ++ logsOfEvents b := by
  simp [logsOfEvents, List.filterMap_append]

theorem logsOfEvents_map_appendLog (ls : List String) :
    logsOfEvents (ls.map .appendLog) = ls := by
  induction ls with
  | nil => rfl
  | cons a t ih => simp [logsOfEvents, List.filterMap_cons] at ih ⊢; exact ih

theorem verify_fs (opts : ConvOptions) (env : PipeEnv) (st : PipeSt) :
    fsOf (verifyNextJsProject opts env st) = st.fs := by
  unfold verifyNextJsProject
  split <;> dsimp only [addLog] <;> split <;> (try split) <;> simp [fsOf]

theorem install_fs (opts : ConvOptions) (env : PipeEnv) (st : PipeSt) :
    fsOf (installDependencies opts env st) = st.fs := by
  unfold installDependencies
  split <;> dsimp only [addLog] <;> split <;> simp [fsOf]

theorem detectEvents_no_terminal (p : VProject) :
    ∀ e ∈ detectEvents p, isTerminalSet e = false := by
  intro e he
  rcases hp : p.gitRepository with _ | g
  · rcases hl : p.link with _ | l
    · simp [detectEvents, hp, hl] at he
    · by_cases ht : l.type = "github"
      · simp [detectEvents, hp, hl, ht] at he
        subst he; rfl
      · simp [detectEvents, hp, hl, ht] at he
  · simp [detectEvents, hp] at he

theorem formatRepoUrl_no_terminal (g : GitRepoInfo) :
    ∀ e ∈ (formatRepoUrl g).2, isTerminalSet e = false := by
  intro e he
  unfold formatRepoUrl at he
  by_cases hc : g.type = "github" && !(g.url.startsWith "https://") && !(g.url.startsWith "git@")
  · simp [hc] at he
    subst he; rfl
  · simp [hc] at he

theorem branchEvents_no_terminal (opts : ReqOptions) (bOk : Bool) :
    ∀ e ∈ branchEvents opts bOk, isTerminalSet e = false := by
  intro e he
  unfold branchEvents at he
  by_cases h : opts.createBranch && opts.branchName != ""
  · rw [if_pos h] at he
    cases bOk <;> simp at he <;> rcases he with rfl | rfl <;> rfl
  · rw [if_neg h] at he
    simp at he

theorem commitEvents_no_terminal (doIt cOk : Bool) :
    ∀ e ∈ commitEvents doIt cOk, isTerminalSet e = false := by
  intro e he
  unfold commitEvents at he
  cases doIt
  · simp at he
  · cases cOk <;> simp at he <;> rcases he with rfl | rfl <;> rfl

theorem afterFirstTerminal_safelyUpdate (m : String) (err : Option String) :
    afterFirstTerminal (safelyUpdateEvents .failed m err) =
      [.setMessage m, .appendLog m] ++
        (match err with
         | some e => [.appendLog ("Error details: " ++ e), .setError e]
         | none => []) := by
  cases err <;> rfl

theorem afterFirstTerminal_finalize (r : ConversionResult) :
    afterFirstTerminal (finalizeEvents r) = [.setMessage r.message, .setResult r] := by
  cases hr : r.success <;>
    simp [finalizeEvents, afterFirstTerminal, isTerminalSet, isTerminalStatus, hr]

theorem startConversionJob_status (env : OrchEnv) (opts : ReqOptions) :
    (startConversionJob env opts).status =
      (match env.projectFetch with
       | .error _ => .failed
       | .ok project =>
         match effectiveGitRepo project with
         | none => .failed
         | some g =>
           if (cloneRepository (formatRepoUrl g).1 env.projectId g.defaultBranch
                 env.storagePath env.cloneEnv).1.success = false then .failed
           else if (runPipeline (pipelineOptsOf
                 (cloneRepository (formatRepoUrl g).1 env.projectId g.defaultBranch
                   env.storagePath env.cloneEnv).1.path project.name opts)
                 env.pipeEnv env.fs0).1.success then JobStatus.success else .failed) := by
  unfold startConversionJob startConversionEvents
  cases hf : env.projectFetch with
  | error e =>
    dsimp only
    exact applyEvents_safelyUpdate_status _ _ _ _
  | ok project =>
    dsimp only
    cases hr : effectiveGitRepo project with
    | none =>
      dsimp only
      rw [applyEvents_append]
      exact applyEvents_safelyUpdate_status _ _ _ _
    | some g =>
      dsimp only
      by_cases hc : (cloneRepository (formatRepoUrl g).1 env.projectId g.defaultBranch
          env.storagePath env.cloneEnv).1.success = false
      · simp only [if_pos hc]
        rw [applyEvents_append]
        exact applyEvents_safelyUpdate_status _ _ _ _
      · simp only [if_neg hc]
        rw [applyEvents_append, applyEvents_append, applyEvents_append,
          applyEvents_append, applyEvents_append, applyEvents_append]
        rw [applyEvents_finalize_status]

/-- Witness for claim C4: a successful clone ends on a repository, and a
non-repository path whose removal fails twice yields the fatal preparation
failure. -/
theorem claim4_witness :
    (cloneRepository "https://x.test/r.git" "p1" "" "/s" cexCloneEnvOk).2 = .repo ∧
    (cloneRepository "https://x.test/r.git" "p1" "" "/s" cexCloneEnvBad).1.success = false ∧
    (cloneRepository "https://x.test/r.git" "p1" "" "/s" cexCloneEnvBad).1.message =
      "Failed to prepare directory for cloning: " ++ cexCloneEnvBad.rmErrMsg := by
  refine ⟨?_, ?_, ?_⟩
  · exact (claim4_clone_recovery "https://x.test/r.git" "p1" "" "/s" cexCloneEnvOk).1 (by decide)
  · exact ((claim4_clone_recovery "https://x.test/r.git" "p1" "" "/s" cexCloneEnvBad).2.2.1
      rfl rfl rfl rfl).1
  · exact ((claim4_clone_recovery "https://x.test/r.git" "p1" "" "/s" cexCloneEnvBad).2.2.1
      rfl rfl rfl rfl).2

theorem safelyUpdate_suffix_ok (m : String) (err : Option String) :
    (∀ e ∈ afterFirstTerminal (safelyUpdateEvents .failed m err), isSetStatusEv e = false) ∧
    (afterFirstTerminal (safelyUpdateEvents .failed m err)).length ≤ 4 := by
  rw [afterFirstTerminal_safelyUpdate]
  cases err with
  | none =>
    constructor
    · intro x hx
      simp at hx
      rcases hx with rfl | rfl <;> rfl
    · simp
  | some e =>
    constructor
    · intro x hx
      simp at hx
      rcases hx with rfl | rfl | rfl | rfl <;> rfl
    · simp

theorem finalize_suffix_ok (r : ConversionResult) :
    (∀ e ∈ afterFirstTerminal (finalizeEvents r), isSetStatusEv e = false) ∧
    (afterFirstTerminal (finalizeEvents r)).length ≤ 4 := by
  rw [afterFirstTerminal_finalize]
  constructor
  · intro x hx
    simp at hx
    rcases hx with rfl | rfl <;> rfl
  · simp

theorem feed_terminal_last (n : Nat) (h : Nat → Option Job) (pre suf : List Job) (j : Job) :
    (feedEmits n h).1 = pre ++ j :: suf → isTerminalStatus j.status = true →
    suf = [] ∧ (feedEmits n h).2 = true := by
  induction n generalizing h pre with
  | zero =>
    intro he _
    simp [feedEmits] at he
  | succ n ih =>
    intro he ht
    unfold feedEmits at he ⊢
    dsimp only at he ⊢
    by_cases hterm : isTerminalStatus (snapshotOf (h 0)).status = true
    · rw [if_pos hterm] at he ⊢
      cases pre with
      | nil =>
        simp at he
        exact ⟨he.2, rfl⟩
      | cons p pre' =>
        simp at he
    · rw [if_neg hterm] at he ⊢
      cases pre with
      | nil =>
        simp at he
        rw [← he.1] at ht
        exact absurd ht hterm
      | cons p pre' =>
        simp at he
        exact ih (fun k => h (k + 1)) pre' he.2 ht

/-- Claim C1: the pipeline steps run strictly in their fixed order, the first
thrown step aborts all later steps (the checkout is left untouched by them)
and produces a failure result with the accumulated log; in particular a
manifest without next in either dependency group aborts at step 1 with a log
entry containing the not-a-Next.js-project phrase, and the Job ends failed. -/
theorem claim1_pipeline_abort_and_failed_job :
    (∀ (opts : ConvOptions) (env : PipeEnv) (fs0 : List (FPath × FileC)),
      stepIsOk (verifyNextJsProject opts env
        { fs := fs0, logs := ["Starting conversion pipeline..."] }) = false →
      (runPipeline opts env fs0).1.success = false ∧ (runPipeline opts env fs0).2 = fs0) ∧
    (∀ (opts : ConvOptions) (env : PipeEnv) (fs0 : List (FPath × FileC)) (m : String),
      env.installErr = some m →
      (runPipeline opts env fs0).1.success = false ∧ (runPipeline opts env fs0).2 = fs0) ∧
    (∀ (env : OrchEnv) (opts : ReqOptions) (project : VProject) (g : GitRepoInfo)
        (pkg : PackageJson),
      env.projectFetch = .ok project →
      effectiveGitRepo project = some g →
      (cloneRepository (formatRepoUrl g).1 env.projectId g.defaultBranch env.storagePath
        env.cloneEnv).1.success = true →
      fsRead env.fs0 ⟨none, "package.json"⟩ = some (.pkg pkg) →
      lookupKey pkg.dependencies "next" = none →
      lookupKey pkg.devDependencies "next" = none →
      (∃ l ∈ (startConversionJob env opts).logs,
        strHasSub "does not appear to be a Next.js project" l = true) ∧
      (startConversionJob env opts).status = .failed) := by
  refine ⟨?_, ?_, ?_⟩
  · intro opts env fs0 h
    cases hv : verifyNextJsProject opts env
        { fs := fs0, logs := ["Starting conversion pipeline..."] } with
    | ok st =>
      rw [hv] at h
      simp [stepIsOk] at h
    | err st m =>
      have hfs : st.fs = fs0 := by
        have hh := verify_fs opts env { fs := fs0, logs := ["Starting conversion pipeline..."] }
        rw [hv] at hh
        simpa [fsOf] using hh
      constructor
      · simp [runPipeline, hv, stepBind, addLog]
      · simp [runPipeline, hv, stepBind, addLog, hfs]
  · intro opts env fs0 m hm
    cases hv : verifyNextJsProject opts env
        { fs := fs0, logs := ["Starting conversion pipeline..."] } with
    | err st msg =>
      have hfs : st.fs = fs0 := by
        have hh := verify_fs opts env { fs := fs0, logs := ["Starting conversion pipeline..."] }
        rw [hv] at hh
        simpa [fsOf] using hh
      constructor
      · simp [runPipeline, hv, stepBind, addLog]
      · simp [runPipeline, hv, stepBind, addLog, hfs]
    | ok st =>
      have hfs : st.fs = fs0 := by
        have hh := verify_fs opts env { fs := fs0, logs := ["Starting conversion pipeline..."] }
        rw [hv] at hh
        simpa [fsOf] using hh
      have hi : ∃ st', installDependencies opts env st =
          .err st' ("Failed to install dependencies: " ++ m) ∧ st'.fs = st.fs := by
        unfold installDependencies
        cases hsp : subPathOf opts <;> dsimp only [addLog] <;> rw [hm] <;> exact ⟨_, rfl, rfl⟩
      obtain ⟨st', hi1, hi2⟩ := hi
      constructor
      · simp [runPipeline, hv, stepBind, addLog, hi1]
      · simp [runPipeline, hv, stepBind, addLog, hi1, hi2, hfs]
  · intro env opts project g pkg hf hr hcl hfs hd hdd
    have hv : ∀ pp nm, verifyNextJsProject (pipelineOptsOf pp nm opts) env.pipeEnv
        { fs := env.fs0, logs := ["Starting conversion pipeline..."] } =
        .err { fs := env.fs0,
               logs := ["Starting conversion pipeline...", "Verifying Next.js project..."] }
          "This project does not appear to be a Next.js project (next package not found)" := by
      intro pp nm
      simp [verifyNextJsProject, pipelineOptsOf, subPathOf, getPackageJsonPath, addLog,
        hfs, hd, hdd]
    have hrun : ∀ pp nm, runPipeline (pipelineOptsOf pp nm opts) env.pipeEnv env.fs0 =
        ({ success := false,
           message := "Conversion failed: This project does not appear to be a Next.js project (next package not found)",
           logs := ["Starting conversion pipeline...", "Verifying Next.js project...",
                    "Error during conversion: This project does not appear to be a Next.js project (next package not found)"] },
         env.fs0) := by
      intro pp nm
      simp [runPipeline, hv pp nm, stepBind, addLog]
    have hst : (startConversionJob env opts).status = .failed := by
      rw [startConversionJob_status]
      simp [hf, hr, hcl, hrun]
    refine ⟨⟨"Error during conversion: This project does not appear to be a Next.js project (next package not found)",
      ?_, by decide⟩, hst⟩
    unfold startConversionJob startConversionEvents
    rw [hf]
    dsimp only
    rw [hr]
    dsimp only
    simp [hcl, hrun, applyEvents_logs, logsOfEvents_append, logsOfEvents_map_appendLog,
      initialJobStore, logsOfEvents, commitEvents]

/-- Witness for claim C1 on a concrete next-less checkout: the pipeline fails
leaving the checkout untouched, an install failure likewise aborts, and the
end-to-end job finishes failed. -/
theorem claim1_witness :
    ((runPipeline cexConvOpts { grep := .exitNoMatch, installErr := none, sedOk := true }
        cexFsNoNext).1.success = false ∧
      (runPipeline cexConvOpts { grep := .exitNoMatch, installErr := none, sedOk := true }
        cexFsNoNext).2 = cexFsNoNext) ∧
    ((runPipeline cexConvOpts { grep := .exitNoMatch, installErr := some "E404", sedOk := true }
        cexFs).1.success = false ∧
      (runPipeline cexConvOpts { grep := .exitNoMatch, installErr := some "E404", sedOk := true }
        cexFs).2 = cexFs) ∧
    ((∃ l ∈ (startConversionJob cexOrchEnvNoNext cexReqOptions).logs,
        strHasSub "does not appear to be a Next.js project" l = true) ∧
      (startConversionJob cexOrchEnvNoNext cexReqOptions).status = .failed) := by
  refine ⟨?_, ?_, ?_⟩
  · exact claim1_pipeline_abort_and_failed_job.1 cexConvOpts
      { grep := .exitNoMatch, installErr := none, sedOk := true } cexFsNoNext (by decide)
  · exact claim1_pipeline_abort_and_failed_job.2.1 cexConvOpts
      { grep := .exitNoMatch, installErr := some "E404", sedOk := true } cexFs "E404" rfl
  · exact claim1_pipeline_abort_and_failed_job.2.2 cexOrchEnvNoNext cexReqOptions cexVProject
      { type := "github", repo := "a/b", url := "https://github.com/a/b.git",
        defaultBranch := "main" }
      cexPkgNoNext rfl rfl (by decide) (by decide) rfl rfl

/-- Counterexample for claim C7: the claim says that once the status field is
set to a terminal value no further log entries are appended and no other field
is mutated; but the finalizing update itself appends the final message (and
error details) to the log after assigning the terminal status, so an append
event follows the first terminal status write. -/
theorem claim7_counterexample :
    StoreEvent.appendLog "Conversion process failed unexpectedly: boom" ∈
      afterFirstTerminal (startConversionEvents cexOrchEnvFetchErr cexReqOptions) ∧
    afterFirstTerminal (startConversionEvents cexOrchEnvFetchErr cexReqOptions) ≠ [] := by
  constructor
  · decide
  · decide

/-- Claim C7 as amended: the first terminal status write of a run is also the
last status write, and the only events after it are the finalizing update's
own writes of the final message, result object and error detail (at most
four); correspondingly, a feed subscriber that receives a terminal snapshot
receives no further snapshot and the stream is closed. -/
theorem claim7_terminal_amended :
    (∀ (env : OrchEnv) (opts : ReqOptions),
      (∀ e ∈ afterFirstTerminal (startConversionEvents env opts), isSetStatusEv e = false) ∧
      (afterFirstTerminal (startConversionEvents env opts)).length ≤ 4) ∧
    (∀ (n : Nat) (h : Nat → Option Job) (pre suf : List Job) (j : Job),
      (feedEmits n h).1 = pre ++ j :: suf → isTerminalStatus j.status = true →
      suf = [] ∧ (feedEmits n h).2 = true) := by
  constructor
  · intro env opts
    unfold startConversionEvents
    cases hf : env.projectFetch with
    | error e =>
      dsimp only
      exact safelyUpdate_suffix_ok _ _
    | ok project =>
      dsimp only
      cases hr : effectiveGitRepo project with
      | none =>
        dsimp only
        rw [afterFirstTerminal_append _ _ (detectEvents_no_terminal project)]
        exact safelyUpdate_suffix_ok _ _
      | some g =>
        dsimp only
        by_cases hc : (cloneRepository (formatRepoUrl g).1 env.projectId g.defaultBranch
            env.storagePath env.cloneEnv).1.success = false
        · simp only [if_pos hc]
          have hhead : ∀ e ∈ detectEvents project ++
              [StoreEvent.appendLog ("Fetching project details for " ++ project.name ++ "..."),
               StoreEvent.appendLog ("Repository: " ++ g.repo)] ++
              (formatRepoUrl g).2 ++
              [StoreEvent.appendLog ("Cloning repository from " ++ (formatRepoUrl g).1 ++ "...")],
              isTerminalSet e = false := by
            intro x hx
            simp only [List.mem_append] at hx
            rcases hx with ((h1 | h2) | h3) | h4
            · exact detectEvents_no_terminal project x h1
            · simp at h2
              rcases h2 with rfl | rfl <;> rfl
            · exact formatRepoUrl_no_terminal g x h3
            · simp at h4
              subst h4; rfl
          rw [afterFirstTerminal_append _ _ hhead]
          exact safelyUpdate_suffix_ok _ _
        · simp only [if_neg hc]
          have hpre : ∀ e ∈ detectEvents project ++
              [StoreEvent.appendLog ("Fetching project details for " ++ project.name ++ "..."),
               StoreEvent.appendLog ("Repository: " ++ g.repo)] ++
              (formatRepoUrl g).2 ++
              [StoreEvent.appendLog ("Cloning repository from " ++ (formatRepoUrl g).1 ++ "...")] ++
              [StoreEvent.appendLog (cloneRepository (formatRepoUrl g).1 env.projectId
                  g.defaultBranch env.storagePath env.cloneEnv).1.message,
               StoreEvent.setStatus .converting] ++
              branchEvents opts env.branchOk ++
              [StoreEvent.appendLog "Starting conversion pipeline..."] ++
              ((runPipeline (pipelineOptsOf (cloneRepository (formatRepoUrl g).1 env.projectId
                  g.defaultBranch env.storagePath env.cloneEnv).1.path project.name opts)
                  env.pipeEnv env.fs0).1.logs.map .appendLog) ++
              commitEvents ((runPipeline (pipelineOptsOf (cloneRepository (formatRepoUrl g).1
                  env.projectId g.defaultBranch env.storagePath env.cloneEnv).1.path
                  project.name opts) env.pipeEnv env.fs0).1.success && opts.commitAndPush)
                env.commitOk,
              isTerminalSet e = false := by
            intro x hx
            simp only [List.mem_append] at hx
            rcases hx with ((((((((h1 | h2) | h3) | h4) | h5) | h6) | h7) | h8) | h9)
            · exact detectEvents_no_terminal project x h1
            · simp at h2
              rcases h2 with rfl | rfl <;> rfl
            · exact formatRepoUrl_no_terminal g x h3
            · simp at h4
              subst h4; rfl
            · simp at h5
              rcases h5 with rfl | rfl <;> rfl
            · exact branchEvents_no_terminal opts env.branchOk x h6
            · simp at h7
              subst h7; rfl
            · exact isTerminalSet_appendLog_map _ x h8
            · exact commitEvents_no_terminal _ _ x h9
          rw [afterFirstTerminal_append _ _ hpre]
          exact finalize_suffix_ok _
  · exact feed_terminal_last

/-- Witness for the amended claim C7 at a concrete environment and a concrete
terminal feed history. -/
theorem claim7_witness :
    isSetStatusEv (.appendLog "Conversion process failed unexpectedly: boom") = false ∧
    (([] : List Job) = [] ∧ (feedEmits 1 (fun _ => some cexTerminalJob)).2 = true) := by
  constructor
  · exact (claim7_terminal_amended.1 cexOrchEnvFetchErr cexReqOptions).1
      (.appendLog "Conversion process failed unexpectedly: boom") (by decide)
  · exact claim7_terminal_amended.2 1 (fun _ => some cexTerminalJob) [] [] cexTerminalJob
      rfl (by decide)

/-- Claim C9: when the pipeline succeeds and the caller requested
commit-and-push, a failed commit-and-push only appends a warning line — the
Job still finishes success from the pipeline result — and the terminal status
never depends on the commit outcome at all. -/
theorem claim9_commit_push_nonfatal :
    (∀ (env : OrchEnv) (opts : ReqOptions) (project : VProject) (g : GitRepoInfo),
      env.projectFetch = .ok project →
      effectiveGitRepo project = some g →
      (cloneRepository (formatRepoUrl g).1 env.projectId g.defaultBranch env.storagePath
        env.cloneEnv).1.success = true →
      (runPipeline (pipelineOptsOf (env.storagePath ++ "/" ++ env.projectId) project.name opts)
        env.pipeEnv env.fs0).1.success = true →
      opts.commitAndPush = true → env.commitOk = false →
      (startConversionJob env opts).status = .success ∧
      "Warning: Failed to commit and push changes" ∈ (startConversionJob env opts).logs) ∧
    (∀ (env : OrchEnv) (opts : ReqOptions) (b b' : Bool),
      (startConversionJob { env with commitOk := b } opts).status =
      (startConversionJob { env with commitOk := b' } opts).status) := by
  constructor
  · intro env opts project g hf hr hcl hps hcp hco
    have hpath : (cloneRepository (formatRepoUrl g).1 env.projectId g.defaultBranch
        env.storagePath env.cloneEnv).1.path = env.storagePath ++ "/" ++ env.projectId :=
      cloneRepository_path _ _ _ _ _
    constructor
    · rw [startConversionJob_status]
      simp [hf, hr, hcl, hpath, hps]
    · unfold startConversionJob startConversionEvents
      rw [hf]
      dsimp only
      rw [hr]
      dsimp only
      simp [hcl, hpath, hps, hcp, hco, applyEvents_logs, logsOfEvents_append,
        logsOfEvents_map_appendLog, initialJobStore, logsOfEvents, commitEvents, finalizeEvents]
  · intro env opts b b'
    rw [startConversionJob_status, startConversionJob_status]

/-- Witness for claim C9: a concrete run whose pipeline succeeds and whose
commit-and-push fails still ends success with the warning logged. -/
theorem claim9_witness :
    (startConversionJob cexOrchEnvOk cexReqOptionsPush).status = .success ∧
    "Warning: Failed to commit and push changes" ∈
      (startConversionJob cexOrchEnvOk cexReqOptionsPush).logs := by
  exact claim9_commit_push_nonfatal.1 cexOrchEnvOk cexReqOptionsPush cexVProject
    { type := "github", repo := "a/b", url := "https://github.com/a/b.git",
      defaultBranch := "main" }
    rfl rfl (by decide) (by decide) rfl rfl

/-! ### Step characterizations for the idempotence proof -/

theorem stepOk_exists (o : StepOut) (h : stepIsOk o = true) : ∃ st, o = .ok st := by
  cases o with
  | ok st => exact ⟨st, rfl⟩
  | err st m => simp [stepIsOk] at h

theorem verify_isOk (opts : ConvOptions) (env : PipeEnv) (st : PipeSt) :
    stepIsOk (verifyNextJsProject opts env st) = goodManifest opts st.fs := by
  unfold verifyNextJsProject goodManifest
  split <;> dsimp only [addLog] <;> split <;> (try split) <;> simp_all [stepIsOk]
  all_goals
    rename_i p heq hcond
    cases hl : lookupKey p.dependencies "next" with
    | none =>
      cases hll : lookupKey p.devDependencies "next" with
      | none => exact absurd hll (hcond hl)
      | some v => right; simp [hll]
    | some v => left; simp [hl]

theorem install_isOk (opts : ConvOptions) (env : PipeEnv) (st : PipeSt) :
    stepIsOk (installDependencies opts env st) = env.installErr.isNone := by
  unfold installDependencies
  split <;> dsimp only [addLog] <;> split <;> simp_all [stepIsOk]

theorem create3_parts (opts : ConvOptions) (st : PipeSt) :
    stepIsOk (createOpenNextConfig opts st) = true ∧
    fsOf (createOpenNextConfig opts st) =
      fsWrite st.fs ⟨subPathOf opts, "open-next.config.ts"⟩
        (.text (openNextConfigContent opts)) :=
  ⟨rfl, rfl⟩

theorem create4_parts (opts : ConvOptions) (st : PipeSt) :
    stepIsOk (createWranglerConfig opts st) = true ∧
    fsOf (createWranglerConfig opts st) =
      fsWrite st.fs ⟨subPathOf opts, "wrangler.jsonc"⟩
        (.text (wranglerConfigContent opts)) :=
  ⟨rfl, rfl⟩

theorem step5_parts (opts : ConvOptions) (st : PipeSt) (p : PackageJson)
    (h : fsRead st.fs (getPackageJsonPath opts) = some (.pkg p)) :
    stepIsOk (updatePackageJson opts st) = true ∧
    fsOf (updatePackageJson opts st) =
      fsWrite st.fs (getPackageJsonPath opts) (.pkg (setScriptsOf p)) := by
  unfold updatePackageJson
  dsimp only [addLog]
  rw [h]
  exact ⟨rfl, rfl⟩

theorem step6_parts (opts : ConvOptions) (env : PipeEnv) (st : PipeSt) (p : PackageJson)
    (h : fsRead st.fs (getPackageJsonPath opts) = some (.pkg p)) :
    stepIsOk (removeConflictingReferences opts env st) = true ∧
    fsOf (removeConflictingReferences opts env st) = removeConfApply opts st.fs := by
  unfold removeConflictingReferences removeConfApply
  dsimp only [addLog]
  rw [h]
  by_cases c1 : (lookupKey p.dependencies nextOnPages).isSome = true <;>
    by_cases c2 : (lookupKey p.devDependencies nextOnPages).isSome = true <;>
    cases hsed : env.sedOk <;>
    simp [c1, c2, hsed, fsOf, stepIsOk]

theorem step7_parts (opts : ConvOptions) (st : PipeSt) :
    stepIsOk (updateGitignore opts st) = true ∧
    fsOf (updateGitignore opts st) = gitignoreApply opts st.fs := by
  unfold updateGitignore gitignoreApply
  dsimp only [addLog]
  cases hsp : subPathOf opts with
  | none =>
    cases hread : fsRead st.fs ⟨none, ".gitignore"⟩ with
    | none =>
      by_cases hc : strHasSub ".open-next" "" = true <;>
        simp [hread, hc, fsOf, stepIsOk, fileTextOf]
    | some f =>
      by_cases hc : strHasSub ".open-next" (fileTextOf f) = true <;>
        simp [hread, hc, fsOf, stepIsOk]
  | some sub =>
    by_cases hroot : fsExists st.fs ⟨none, ".gitignore"⟩ = true
    · cases hread : fsRead st.fs ⟨none, ".gitignore"⟩ with
      | none => simp [fsExists, hread] at hroot
      | some f =>
        by_cases hc : strHasSub ".open-next" (fileTextOf f) = true <;>
          simp [hroot, hread, hc, fsOf, stepIsOk]
    · by_cases hsub : fsExists st.fs ⟨some sub, ".gitignore"⟩ = true
      · cases hread : fsRead st.fs ⟨some sub, ".gitignore"⟩ with
        | none => simp [fsExists, hread] at hsub
        | some f =>
          by_cases hc : strHasSub ".open-next" (fileTextOf f) = true <;>
            simp [hroot, hsub, hread, hc, fsOf, stepIsOk]
      · have hread : fsRead st.fs ⟨none, ".gitignore"⟩ = none := by
          cases hread : fsRead st.fs ⟨none, ".gitignore"⟩ with
          | none => rfl
          | some f => simp [fsExists, hread] at hroot
        by_cases hc : strHasSub ".open-next" "" = true <;>
          simp [hroot, hsub, hread, hc, fsOf, stepIsOk, fileTextOf]

theorem fpath_ne_of_name (s1 s2 : Option String) (a b : String) (h : a ≠ b) :
    (⟨s1, a⟩ : FPath) ≠ ⟨s2, b⟩ := by
  intro hh
  injection hh with h1 h2
  exact h h2

theorem strHasSub_openNext_append (c : String) :
    strHasSub ".open-next" (c ++ gitignoreAppend) = true :=
  strHasSub_append_right _ _ _ (by decide)

theorem removeConfApply_read_other (opts : ConvOptions) (fs : List (FPath × FileC))
    (q : FPath) (h : ¬ getPackageJsonPath opts = q) :
    fsRead (removeConfApply opts fs) q = fsRead fs q := by
  unfold removeConfApply
  cases hr : fsRead fs (getPackageJsonPath opts) with
  | none => rfl
  | some f =>
    cases f with
    | text s => rfl
    | pkg p =>
      dsimp only
      by_cases c1 : (lookupKey p.dependencies nextOnPages).isSome = true <;>
        by_cases c2 : (lookupKey p.devDependencies nextOnPages).isSome = true <;>
        simp [c1, c2, fsRead_fsWrite, h]

theorem removeConfApply_read_pkg (opts : ConvOptions) (fs : List (FPath × FileC))
    (p : PackageJson) (hr : fsRead fs (getPackageJsonPath opts) = some (.pkg p)) :
    fsRead (removeConfApply opts fs) (getPackageJsonPath opts) =
      some (.pkg (removePagesPkg p)) := by
  unfold removeConfApply removePagesPkg
  rw [hr]
  dsimp only
  by_cases c1 : (lookupKey p.dependencies nextOnPages).isSome = true <;>
    by_cases c2 : (lookupKey p.devDependencies nextOnPages).isSome = true <;>
    simp [c1, c2, fsRead_fsWrite, hr]

theorem removeConfApply_noop (opts : ConvOptions) (fs : List (FPath × FileC))
    (p : PackageJson) (hr : fsRead fs (getPackageJsonPath opts) = some (.pkg p))
    (h1 : lookupKey p.dependencies nextOnPages = none)
    (h2 : lookupKey p.devDependencies nextOnPages = none) :
    removeConfApply opts fs = fs := by
  unfold removeConfApply
  rw [hr]
  simp [h1, h2]

theorem gitignoreApply_read_other (opts : ConvOptions) (fs : List (FPath × FileC))
    (q : FPath) (h : q.name ≠ ".gitignore") :
    fsRead (gitignoreApply opts fs) q = fsRead fs q := by
  have hne : ∀ (s : Option String), ¬ (⟨s, ".gitignore"⟩ : FPath) = q := by
    intro s hh
    exact h (by rw [← hh])
  unfold gitignoreApply
  cases hsp : subPathOf opts with
  | none =>
    dsimp only
    split
    · rfl
    · simp [fsRead_fsWrite, hne none]
  | some sub =>
    dsimp only
    by_cases hroot : fsExists fs ⟨none, ".gitignore"⟩ = true
    · simp only [hroot, if_true, reduceIte]
      split
      · rfl
      · simp [fsRead_fsWrite, hne none]
    · by_cases hsub : fsExists fs ⟨some sub, ".gitignore"⟩ = true
      · simp only [hroot, hsub, Bool.false_eq_true, if_false, if_true, reduceIte]
        split
        · rfl
        · simp [fsRead_fsWrite, hne (some sub)]
      · simp only [hroot, hsub, Bool.false_eq_true, if_false, reduceIte]
        split
        · rfl
        · simp [fsRead_fsWrite, hne none]

theorem gitignoreApply_idem (opts : ConvOptions) (fs : List (FPath × FileC)) :
    gitignoreApply opts (gitignoreApply opts fs) = gitignoreApply opts fs := by
  cases hsp : subPathOf opts with
  | none =>
    cases hread : fsRead fs ⟨none, ".gitignore"⟩ with
    | none =>
      have hA : gitignoreApply opts fs =
          fsWrite fs ⟨none, ".gitignore"⟩ (.text ("" ++ gitignoreAppend)) := by
        unfold gitignoreApply
        rw [hsp]
        dsimp only
        rw [hread]
        dsimp only
        rw [if_neg (by decide)]
      rw [hA]
      unfold gitignoreApply
      rw [hsp]
      dsimp only
      rw [fsRead_fsWrite, if_pos rfl]
      dsimp only [fileTextOf]
      rw [if_pos (strHasSub_openNext_append "")]
    | some f =>
      by_cases hc : strHasSub ".open-next" (fileTextOf f) = true
      · have hA : gitignoreApply opts fs = fs := by
          unfold gitignoreApply
          rw [hsp]
          dsimp only
          rw [hread]
          dsimp only
          rw [if_pos hc]
        rw [hA]
        exact hA
      · have hA : gitignoreApply opts fs =
            fsWrite fs ⟨none, ".gitignore"⟩ (.text (fileTextOf f ++ gitignoreAppend)) := by
          unfold gitignoreApply
          rw [hsp]
          dsimp only
          rw [hread]
          dsimp only
          rw [if_neg hc]
        rw [hA]
        unfold gitignoreApply
        rw [hsp]
        dsimp only
        rw [fsRead_fsWrite, if_pos rfl]
        dsimp only [fileTextOf]
        rw [if_pos (strHasSub_openNext_append _)]
  | some sub =>
    by_cases hroot : fsExists fs ⟨none, ".gitignore"⟩ = true
    · obtain ⟨f, hread⟩ : ∃ f, fsRead fs ⟨none, ".gitignore"⟩ = some f := by
        cases hread : fsRead fs ⟨none, ".gitignore"⟩ with
        | none => simp [fsExists, hread] at hroot
        | some f => exact ⟨f, rfl⟩
      by_cases hc : strHasSub ".open-next" (fileTextOf f) = true
      · have hA : gitignoreApply opts fs = fs := by
          unfold gitignoreApply
          rw [hsp]
          dsimp only
          rw [if_pos hroot, hread]
          dsimp only
          rw [if_pos hc]
        rw [hA]
        exact hA
      · have hA : gitignoreApply opts fs =
            fsWrite fs ⟨none, ".gitignore"⟩ (.text (fileTextOf f ++ gitignoreAppend)) := by
          unfold gitignoreApply
          rw [hsp]
          dsimp only
          rw [if_pos hroot, hread]
          dsimp only
          rw [if_neg hc]
        rw [hA]
        unfold gitignoreApply
        rw [hsp]
        dsimp only
        have hex : fsExists (fsWrite fs ⟨none, ".gitignore"⟩
            (.text (fileTextOf f ++ gitignoreAppend))) ⟨none, ".gitignore"⟩ = true := by
          rw [fsExists, fsRead_fsWrite, if_pos rfl]
          rfl
        rw [if_pos hex, fsRead_fsWrite, if_pos rfl]
        dsimp only [fileTextOf]
        rw [if_pos (strHasSub_openNext_append _)]
    · by_cases hsub : fsExists fs ⟨some sub, ".gitignore"⟩ = true
      · obtain ⟨f, hread⟩ : ∃ f, fsRead fs ⟨some sub, ".gitignore"⟩ = some f := by
          cases hread : fsRead fs ⟨some sub, ".gitignore"⟩ with
          | none => simp [fsExists, hread] at hsub
          | some f => exact ⟨f, rfl⟩
        by_cases hc : strHasSub ".open-next" (fileTextOf f) = true
        · have hA : gitignoreApply opts fs = fs := by
            unfold gitignoreApply
            rw [hsp]
            dsimp only
            rw [if_neg hroot, if_pos hsub, hread]
            dsimp only
            rw [if_pos hc]
          rw [hA]
          exact hA
        · have hA : gitignoreApply opts fs =
              fsWrite fs ⟨some sub, ".gitignore"⟩ (.text (fileTextOf f ++ gitignoreAppend)) := by
            unfold gitignoreApply
            rw [hsp]
            dsimp only
            rw [if_neg hroot, if_pos hsub, hread]
            dsimp only
            rw [if_neg hc]
          have hreadr : fsRead fs ⟨none, ".gitignore"⟩ = none := by
            cases hr0 : fsRead fs ⟨none, ".gitignore"⟩ with
            | none => rfl
            | some f0 => simp [fsExists, hr0] at hroot
          rw [hA]
          unfold gitignoreApply
          rw [hsp]
          dsimp only
          have hex0 : ¬ fsExists (fsWrite fs ⟨some sub, ".gitignore"⟩
              (.text (fileTextOf f ++ gitignoreAppend))) ⟨none, ".gitignore"⟩ = true := by
            rw [fsExists, fsRead_fsWrite, if_neg (by simp), hreadr]
            simp
          have hex1 : fsExists (fsWrite fs ⟨some sub, ".gitignore"⟩
              (.text (fileTextOf f ++ gitignoreAppend))) ⟨some sub, ".gitignore"⟩ = true := by
            rw [fsExists, fsRead_fsWrite, if_pos rfl]
            rfl
          rw [if_neg hex0, if_pos hex1, fsRead_fsWrite, if_pos rfl]
          dsimp only [fileTextOf]
          rw [if_pos (strHasSub_openNext_append _)]
      · have hreadr : fsRead fs ⟨none, ".gitignore"⟩ = none := by
          cases hr0 : fsRead fs ⟨none, ".gitignore"⟩ with
          | none => rfl
          | some f0 => simp [fsExists, hr0] at hroot
        have hA : gitignoreApply opts fs =
            fsWrite fs ⟨none, ".gitignore"⟩ (.text ("" ++ gitignoreAppend)) := by
          unfold gitignoreApply
          rw [hsp]
          dsimp only
          rw [if_neg hroot, if_neg hsub, hreadr]
          dsimp only
          rw [if_neg (by decide)]
        rw [hA]
        unfold gitignoreApply
        rw [hsp]
        dsimp only
        have hex : fsExists (fsWrite fs ⟨none, ".gitignore"⟩
            (.text ("" ++ gitignoreAppend))) ⟨none, ".gitignore"⟩ = true := by
          rw [fsExists, fsRead_fsWrite, if_pos rfl]
          rfl
        rw [if_pos hex, fsRead_fsWrite, if_pos rfl]
        dsimp only [fileTextOf]
        rw [if_pos (strHasSub_openNext_append "")]


theorem setScriptsOf_scripts_lookup (p : PackageJson) :
    lookupKey (setScriptsOf p).scripts "preview" = some previewScript ∧
    lookupKey (setScriptsOf p).scripts "deploy" = some deployScript ∧
    lookupKey (setScriptsOf p).scripts "cf-typegen" = some cfTypegenScript := by
  unfold setScriptsOf
  refine ⟨?_, ?_, ?_⟩ <;> simp [lookup_setKey]

theorem setScriptsOf_fix (r : PackageJson)
    (h1 : lookupKey r.scripts "preview" = some previewScript)
    (h2 : lookupKey r.scripts "deploy" = some deployScript)
    (h3 : lookupKey r.scripts "cf-typegen" = some cfTypegenScript) :
    setScriptsOf r = r := by
  unfold setScriptsOf
  rw [setKey_noop _ _ _ h1, setKey_noop _ _ _ h2, setKey_noop _ _ _ h3]

theorem removePagesPkg_scripts (p : PackageJson) :
    (removePagesPkg p).scripts = p.scripts := by
  unfold removePagesPkg
  dsimp only
  split <;> split <;> rfl

theorem removePagesPkg_next (p : PackageJson) :
    lookupKey (removePagesPkg p).dependencies "next" = lookupKey p.dependencies "next" ∧
    lookupKey (removePagesPkg p).devDependencies "next" =
      lookupKey p.devDependencies "next" := by
  have hne : nextOnPages ≠ "next" := by decide
  unfold removePagesPkg
  dsimp only
  split <;> split <;> simp [lookup_removeKey_ne _ _ _ hne]

theorem removePagesPkg_nop_none (p : PackageJson) :
    lookupKey (removePagesPkg p).dependencies nextOnPages = none ∧
    lookupKey (removePagesPkg p).devDependencies nextOnPages = none := by
  unfold removePagesPkg
  dsimp only
  cases h1 : lookupKey p.dependencies nextOnPages <;>
    cases h2 : lookupKey p.devDependencies nextOnPages <;>
    simp [h1, h2, lookup_removeKey_self]

theorem runPipeline_fs_abort (opts : ConvOptions) (env : PipeEnv)
    (fs0 : List (FPath × FileC))
    (h : goodManifest opts fs0 = false ∨ env.installErr ≠ none) :
    (runPipeline opts env fs0).2 = fs0 := by
  cases hv : verifyNextJsProject opts env
      { fs := fs0, logs := ["Starting conversion pipeline..."] } with
  | err st m =>
    have hfs : st.fs = fs0 := by
      have hh := verify_fs opts env { fs := fs0, logs := ["Starting conversion pipeline..."] }
      rw [hv] at hh
      simpa [fsOf] using hh
    simp [runPipeline, hv, stepBind, addLog, hfs]
  | ok st =>
    have hfs : st.fs = fs0 := by
      have hh := verify_fs opts env { fs := fs0, logs := ["Starting conversion pipeline..."] }
      rw [hv] at hh
      simpa [fsOf] using hh
    have hgood : goodManifest opts fs0 = true := by
      have hh := verify_isOk opts env { fs := fs0, logs := ["Starting conversion pipeline..."] }
      rw [hv] at hh
      simpa [stepIsOk] using hh.symm
    have hierr : env.installErr ≠ none := by
      rcases h with h | h
      · rw [hgood] at h; cases h
      · exact h
    cases hi : env.installErr with
    | none => exact absurd hi hierr
    | some m =>
      cases hins : installDependencies opts env st with
      | ok st' =>
        have hh := install_isOk opts env st
        rw [hins, hi] at hh
        simp [stepIsOk] at hh
      | err st' m' =>
        have hfs' : st'.fs = fs0 := by
          have hh := install_fs opts env st
          rw [hins] at hh
          simp [fsOf] at hh
          rw [hh, hfs]
        simp [runPipeline, hv, hins, stepBind, addLog, hfs']

theorem runPipeline_fs_good (opts : ConvOptions) (env : PipeEnv)
    (fs0 : List (FPath × FileC)) (p : PackageJson)
    (hr : fsRead fs0 (getPackageJsonPath opts) = some (.pkg p))
    (hnext : ((lookupKey p.dependencies "next").isSome ||
      (lookupKey p.devDependencies "next").isSome) = true)
    (hi : env.installErr = none) :
    (runPipeline opts env fs0).2 =
      gitignoreApply opts (removeConfApply opts
        (fsWrite (fsWrite (fsWrite fs0 ⟨subPathOf opts, "open-next.config.ts"⟩
            (.text (openNextConfigContent opts)))
          ⟨subPathOf opts, "wrangler.jsonc"⟩ (.text (wranglerConfigContent opts)))
          (getPackageJsonPath opts) (.pkg (setScriptsOf p)))) := by
  have hne_o : ¬ (⟨subPathOf opts, "open-next.config.ts"⟩ : FPath) = getPackageJsonPath opts :=
    fpath_ne_of_name _ _ _ _ (by decide)
  have hne_w : ¬ (⟨subPathOf opts, "wrangler.jsonc"⟩ : FPath) = getPackageJsonPath opts :=
    fpath_ne_of_name _ _ _ _ (by decide)
  have hg : goodManifest opts fs0 = true := by
    unfold goodManifest
    rw [hr]
    exact hnext
  have h1ok : stepIsOk (verifyNextJsProject opts env
      { fs := fs0, logs := ["Starting conversion pipeline..."] }) = true := by
    rw [verify_isOk]
    exact hg
  obtain ⟨st1, e1⟩ := stepOk_exists _ h1ok
  have f1 : st1.fs = fs0 := by
    have hh := verify_fs opts env { fs := fs0, logs := ["Starting conversion pipeline..."] }
    rw [e1] at hh
    simpa [fsOf] using hh
  have h2ok : stepIsOk (installDependencies opts env st1) = true := by
    rw [install_isOk, hi]
    rfl
  obtain ⟨st2, e2⟩ := stepOk_exists _ h2ok
  have f2 : st2.fs = fs0 := by
    have hh := install_fs opts env st1
    rw [e2] at hh
    simp [fsOf] at hh
    rw [hh, f1]
  obtain ⟨st3, e3⟩ := stepOk_exists _ (create3_parts opts st2).1
  have f3 : st3.fs = fsWrite fs0 ⟨subPathOf opts, "open-next.config.ts"⟩
      (.text (openNextConfigContent opts)) := by
    have hh := (create3_parts opts st2).2
    rw [e3] at hh
    simp [fsOf] at hh
    rw [hh, f2]
  obtain ⟨st4, e4⟩ := stepOk_exists _ (create4_parts opts st3).1
  have f4 : st4.fs = fsWrite (fsWrite fs0 ⟨subPathOf opts, "open-next.config.ts"⟩
      (.text (openNextConfigContent opts))) ⟨subPathOf opts, "wrangler.jsonc"⟩
      (.text (wranglerConfigContent opts)) := by
    have hh := (create4_parts opts st3).2
    rw [e4] at hh
    simp [fsOf] at hh
    rw [hh, f3]
  have hread4 : fsRead st4.fs (getPackageJsonPath opts) = some (.pkg p) := by
    rw [f4, fsRead_fsWrite, if_neg hne_w, fsRead_fsWrite, if_neg hne_o, hr]
  obtain ⟨st5, e5⟩ := stepOk_exists _ (step5_parts opts st4 p hread4).1
  have f5 : st5.fs = fsWrite st4.fs (getPackageJsonPath opts) (.pkg (setScriptsOf p)) := by
    have hh := (step5_parts opts st4 p hread4).2
    rw [e5] at hh
    simpa [fsOf] using hh
  have hread5 : fsRead st5.fs (getPackageJsonPath opts) = some (.pkg (setScriptsOf p)) := by
    rw [f5, fsRead_fsWrite, if_pos rfl]
  obtain ⟨st6, e6⟩ := stepOk_exists _ (step6_parts opts env st5 _ hread5).1
  have f6 : st6.fs = removeConfApply opts st5.fs := by
    have hh := (step6_parts opts env st5 _ hread5).2
    rw [e6] at hh
    simpa [fsOf] using hh
  obtain ⟨st7, e7⟩ := stepOk_exists _ (step7_parts opts st6).1
  have f7 : st7.fs = gitignoreApply opts st6.fs := by
    have hh := (step7_parts opts st6).2
    rw [e7] at hh
    simpa [fsOf] using hh
  have hfin : (runPipeline opts env fs0).2 = st7.fs := by
    simp [runPipeline, e1, e2, e3, e4, e5, e6, e7, stepBind, addLog]
  rw [hfin, f7, f6, f5, f4]

/-- Claim C3: running the pipeline a second time with the same configuration
and environment over the result of the first run leaves the whole tracked
checkout byte-identical — in particular the two generated config files, the
manifest scripts, and the ignore file gain nothing on the second run. -/
theorem claim3_pipeline_idempotent (opts : ConvOptions) (env : PipeEnv)
    (fs0 : List (FPath × FileC)) :
    (runPipeline opts env (runPipeline opts env fs0).2).2 = (runPipeline opts env fs0).2 := by
  by_cases hg : goodManifest opts fs0 = true
  · cases hi : env.installErr with
    | some m =>
      have h1 : (runPipeline opts env fs0).2 = fs0 :=
        runPipeline_fs_abort opts env fs0 (Or.inr (by simp [hi]))
      rw [h1]
      exact h1
    | none =>
      have hx := hg
      unfold goodManifest at hx
      cases hread : fsRead fs0 (getPackageJsonPath opts) with
      | none => rw [hread] at hx; simp at hx
      | some f =>
        cases f with
        | text s => rw [hread] at hx; simp at hx
        | pkg p =>
          rw [hread] at hx
          have hfs1 := runPipeline_fs_good opts env fs0 p hread hx hi
          have hne_o : ¬ (⟨subPathOf opts, "open-next.config.ts"⟩ : FPath) =
              getPackageJsonPath opts := fpath_ne_of_name _ _ _ _ (by decide)
          have hne_w : ¬ (⟨subPathOf opts, "wrangler.jsonc"⟩ : FPath) =
              getPackageJsonPath opts := fpath_ne_of_name _ _ _ _ (by decide)
          have hne_wo : ¬ (⟨subPathOf opts, "wrangler.jsonc"⟩ : FPath) =
              ⟨subPathOf opts, "open-next.config.ts"⟩ := fpath_ne_of_name _ _ _ _ (by decide)
          have hne_pw : ¬ (getPackageJsonPath opts : FPath) =
              ⟨subPathOf opts, "wrangler.jsonc"⟩ := fpath_ne_of_name _ _ _ _ (by decide)
          have hne_po : ¬ (getPackageJsonPath opts : FPath) =
              ⟨subPathOf opts, "open-next.config.ts"⟩ := fpath_ne_of_name _ _ _ _ (by decide)
          set q := setScriptsOf p with hq
          set C := fsWrite (fsWrite (fsWrite fs0 ⟨subPathOf opts, "open-next.config.ts"⟩
              (.text (openNextConfigContent opts)))
            ⟨subPathOf opts, "wrangler.jsonc"⟩ (.text (wranglerConfigContent opts)))
            (getPackageJsonPath opts) (.pkg q) with hC
          set D := removeConfApply opts C with hD
          set E := gitignoreApply opts D with hE
          have hCpj : fsRead C (getPackageJsonPath opts) = some (.pkg q) := by
            rw [hC, fsRead_fsWrite, if_pos rfl]
          have hCo : fsRead C ⟨subPathOf opts, "open-next.config.ts"⟩ =
              some (.text (openNextConfigContent opts)) := by
            rw [hC, fsRead_fsWrite, if_neg hne_po, fsRead_fsWrite, if_neg hne_wo,
              fsRead_fsWrite, if_pos rfl]
          have hCw : fsRead C ⟨subPathOf opts, "wrangler.jsonc"⟩ =
              some (.text (wranglerConfigContent opts)) := by
            rw [hC, fsRead_fsWrite, if_neg hne_pw, fsRead_fsWrite, if_pos rfl]
          have hDpj : fsRead D (getPackageJsonPath opts) = some (.pkg (removePagesPkg q)) := by
            rw [hD]
            exact removeConfApply_read_pkg opts C q hCpj
          have hDo : fsRead D ⟨subPathOf opts, "open-next.config.ts"⟩ =
              some (.text (openNextConfigContent opts)) := by
            rw [hD, removeConfApply_read_other opts C _ hne_po]
            exact hCo
          have hDw : fsRead D ⟨subPathOf opts, "wrangler.jsonc"⟩ =
              some (.text (wranglerConfigContent opts)) := by
            rw [hD, removeConfApply_read_other opts C _ hne_pw]
            exact hCw
          have hEpj : fsRead E (getPackageJsonPath opts) = some (.pkg (removePagesPkg q)) := by
            rw [hE, gitignoreApply_read_other opts D (getPackageJsonPath opts)
              (by show ("package.json" : String) ≠ ".gitignore"; decide)]
            exact hDpj
          have hEo : fsRead E ⟨subPathOf opts, "open-next.config.ts"⟩ =
              some (.text (openNextConfigContent opts)) := by
            rw [hE, gitignoreApply_read_other opts D ⟨subPathOf opts, "open-next.config.ts"⟩
              (by show ("open-next.config.ts" : String) ≠ ".gitignore"; decide)]
            exact hDo
          have hEw : fsRead E ⟨subPathOf opts, "wrangler.jsonc"⟩ =
              some (.text (wranglerConfigContent opts)) := by
            rw [hE, gitignoreApply_read_other opts D ⟨subPathOf opts, "wrangler.jsonc"⟩
              (by show ("wrangler.jsonc" : String) ≠ ".gitignore"; decide)]
            exact hDw
          have hnext_r : ((lookupKey (removePagesPkg q).dependencies "next").isSome ||
              (lookupKey (removePagesPkg q).devDependencies "next").isSome) = true := by
            rw [(removePagesPkg_next q).1, (removePagesPkg_next q).2]
            have hqd : q.dependencies = p.dependencies := rfl
            have hqdd : q.devDependencies = p.devDependencies := rfl
            rw [hqd, hqdd]
            exact hx
          have h2 := runPipeline_fs_good opts env E (removePagesPkg q) hEpj hnext_r hi
          rw [hfs1]
          rw [h2]
          rw [fsWrite_noop _ _ _ hEo, fsWrite_noop _ _ _ hEw]
          have hfixr : setScriptsOf (removePagesPkg q) = removePagesPkg q := by
            apply setScriptsOf_fix
            · rw [show (removePagesPkg q).scripts = q.scripts from removePagesPkg_scripts q]
              exact (setScriptsOf_scripts_lookup p).1
            · rw [show (removePagesPkg q).scripts = q.scripts from removePagesPkg_scripts q]
              exact (setScriptsOf_scripts_lookup p).2.1
            · rw [show (removePagesPkg q).scripts = q.scripts from removePagesPkg_scripts q]
              exact (setScriptsOf_scripts_lookup p).2.2
          rw [hfixr]
          rw [fsWrite_noop _ _ _ hEpj]
          rw [removeConfApply_noop opts E (removePagesPkg q) hEpj
            (removePagesPkg_nop_none q).1 (removePagesPkg_nop_none q).2]
          rw [hE]
          exact gitignoreApply_idem opts D
  · have h1 : (runPipeline opts env fs0).2 = fs0 :=
      runPipeline_fs_abort opts env fs0 (Or.inl (by simpa using hg))
    rw [h1]
    exact h1

end Diverce
